import Mathlib

/- Shallow embedding of the core of the DataFusion repository:
   the scalar layer (src/datafusion/common/src/scalar.rs) and the
   logical-plan layer (src/datafusion/core/src/logical_plan/builder.rs and
   src/datafusion/core/src/optimizer/utils.rs).

   Conventions used throughout:
   * Rust `Result<T>` is `Except DataFusionError T`; a Rust panic
     (`panic!`, `unimplemented!`, a failed `assert!`, `unwrap`, `expect` or an
     out-of-bounds index) is `Option.none` for functions returning `Option`,
     or the distinguished error `DataFusionError.Panicked` for functions
     returning `Except`.
   * Machine integers carry no arithmetic in the modelled code paths other
     than negation, so integer payloads are modelled as unbounded `Int`.
   * IEEE floats are modelled by `Fp`, which keeps exactly the structure the
     claims depend on: NaN bit patterns, the two signed zeros, and all other
     values abstracted by a nonzero integer code. -/

namespace DataFusion

/-- Model of `arrow::datatypes::TimeUnit`. -/
inductive TimeUnitM : Type where
  | second
  | millisecond
  | microsecond
  | nanosecond
  deriving DecidableEq

/-- Model of `arrow::datatypes::IntervalUnit`. -/
inductive IntervalUnitM : Type where
  | yearMonth
  | dayTime
  | monthDayNano
  deriving DecidableEq

/-- Model of `arrow::datatypes::DataType`, restricted to the variants the
modelled code touches.  The `Field` of a `List` / `FixedSizeList` is flattened
into the constructor as (name, type, nullable); the `Vec<Field>` of a `Struct`
is encoded as a `fieldCons`/`fieldNil` chain so that the type stays a plain
recursive inductive and `deriving DecidableEq` models the derived
`PartialEq`/`Eq` of the Rust type. -/
inductive DataTypeM : Type where
  | null
  | boolean
  | int8
  | int16
  | int32
  | int64
  | uint8
  | uint16
  | uint32
  | uint64
  | float32
  | float64
  | decimal (precision scale : Nat)
  | utf8
  | largeUtf8
  | binary
  | largeBinary
  | date32
  | date64
  | timestamp (unit : TimeUnitM) (tz : Option String)
  | interval (unit : IntervalUnitM)
  | list (itemName : String) (itemType : DataTypeM) (itemNullable : Bool)
  | structT (fields : DataTypeM)
  | fieldNil
  | fieldCons (name : String) (ty : DataTypeM) (nullable : Bool) (rest : DataTypeM)
  | dictionary (keyType valueType : DataTypeM)
  | fixedSizeList (itemName : String) (itemType : DataTypeM) (itemNullable : Bool) (len : Nat)
  deriving DecidableEq

/-- An arrow `Field` as the triple (name, data type, nullable). -/
abbrev FieldS := String × DataTypeM × Bool

/-- Encode a `Vec<Field>` into the `fieldCons` chain stored inside
`DataTypeM.structT`. -/
def encodeFields : List FieldS → DataTypeM
  | [] => .fieldNil
  | (n, t, nl) :: rest => .fieldCons n t nl (encodeFields rest)

/-- Model of an IEEE float bit pattern, keeping only the structure the claims
depend on: NaNs keep their payload bits, the two signed zeros are
distinguished, every other value (all nonzero finite values and the two
infinities) is abstracted by a nonzero integer code on which negation acts as
integer negation.  This is sound for the modelled operations, which never do
float arithmetic other than negation. -/
inductive Fp : Type where
  | nan (bits : Nat)
  | zero (neg : Bool)
  | finite (val : Int)
  deriving DecidableEq

/-- IEEE `==` on floats: NaN is never equal to anything (itself included),
`-0.0 == 0.0`, other values compare by value. -/
def Fp.ieeeEq : Fp → Fp → Bool
  | .nan _, _ => false
  | _, .nan _ => false
  | .zero _, .zero _ => true
  | .finite v, .finite w => v == w
  | .zero _, .finite _ => false
  | .finite _, .zero _ => false

/-- `PartialEq` of `ordered_float::OrderedFloat`: IEEE `==` except that any
two NaNs are equal. -/
def Fp.ordEq : Fp → Fp → Bool
  | .nan _, .nan _ => true
  | a, b => Fp.ieeeEq a b

/-- The canonical encoding `OrderedFloat`'s `Hash` feeds to the hasher: all
NaNs collapse to one canonical bit pattern, both zeros collapse to the
canonical zero bits, every other value hashes its own bits. -/
inductive FpCanon : Type where
  | nanC
  | zeroC
  | finC (val : Int)
  deriving DecidableEq

/-- Canonicalization used by `OrderedFloat`'s `Hash`. -/
def Fp.canon : Fp → FpCanon
  | .nan _ => .nanC
  | .zero _ => .zeroC
  | .finite v => .finC v

/-- IEEE negation: flips the sign bit; NaN payload is preserved. -/
def Fp.neg : Fp → Fp
  | .nan b => .nan b
  | .zero n => .zero (!n)
  | .finite v => .finite (-v)

/-- `Option<OrderedFloat>` equality (`v1.map(OrderedFloat).eq(&v2.map(OrderedFloat))`
in the source). -/
def Fp.optOrdEq : Option Fp → Option Fp → Bool
  | none, none => true
  | some a, some b => Fp.ordEq a b
  | _, _ => false

/-- Model of `DataFusionError` (only the kind is kept; messages are dropped).
`Panicked` is not a Rust error: it marks a panic in code returning `Result`. -/
inductive DataFusionError : Type where
  | Internal
  | Plan
  | NotImplemented
  | ArrowError
  | SchemaFieldNotFound
  | SchemaAmbiguousReference
  | SchemaDuplicateField
  | Panicked
  deriving DecidableEq

/-- Model of `ScalarValue` (scalar.rs lines 41-100).  Payload integers are
unbounded `Int`; strings are `String`; byte vectors are `List Nat`. -/
inductive ScalarValue : Type where
  | Null
  | Boolean (v : Option Bool)
  | Float32 (v : Option Fp)
  | Float64 (v : Option Fp)
  | Decimal128 (v : Option Int) (precision scale : Nat)
  | Int8 (v : Option Int)
  | Int16 (v : Option Int)
  | Int32 (v : Option Int)
  | Int64 (v : Option Int)
  | UInt8 (v : Option Int)
  | UInt16 (v : Option Int)
  | UInt32 (v : Option Int)
  | UInt64 (v : Option Int)
  | Utf8 (v : Option String)
  | LargeUtf8 (v : Option String)
  | Binary (v : Option (List Nat))
  | LargeBinary (v : Option (List Nat))
  | ListSV (v : Option (List ScalarValue)) (elemType : DataTypeM)
  | Date32 (v : Option Int)
  | Date64 (v : Option Int)
  | TimestampSecond (v : Option Int) (tz : Option String)
  | TimestampMillisecond (v : Option Int) (tz : Option String)
  | TimestampMicrosecond (v : Option Int) (tz : Option String)
  | TimestampNanosecond (v : Option Int) (tz : Option String)
  | IntervalYearMonth (v : Option Int)
  | IntervalDayTime (v : Option Int)
  | IntervalMonthDayNano (v : Option Int)
  | Struct (v : Option (List ScalarValue)) (fields : List FieldS)

mutual

/-- Model of `impl PartialEq for ScalarValue` (scalar.rs lines 104-179), with
the arms in source order.  Floats compare through `OrderedFloat`; timestamps
compare by payload only (the timezone is ignored); mismatched tags are not
equal. -/
def ScalarValue.eq : ScalarValue → ScalarValue → Bool
  | .Decimal128 v1 p1 s1, .Decimal128 v2 p2 s2 => v1 == v2 && p1 == p2 && s1 == s2
  | .Decimal128 _ _ _, _ => false
  | .Boolean v1, .Boolean v2 => v1 == v2
  | .Boolean _, _ => false
  | .Float32 v1, .Float32 v2 => Fp.optOrdEq v1 v2
  | .Float32 _, _ => false
  | .Float64 v1, .Float64 v2 => Fp.optOrdEq v1 v2
  | .Float64 _, _ => false
  | .Int8 v1, .Int8 v2 => v1 == v2
  | .Int8 _, _ => false
  | .Int16 v1, .Int16 v2 => v1 == v2
  | .Int16 _, _ => false
  | .Int32 v1, .Int32 v2 => v1 == v2
  | .Int32 _, _ => false
  | .Int64 v1, .Int64 v2 => v1 == v2
  | .Int64 _, _ => false
  | .UInt8 v1, .UInt8 v2 => v1 == v2
  | .UInt8 _, _ => false
  | .UInt16 v1, .UInt16 v2 => v1 == v2
  | .UInt16 _, _ => false
  | .UInt32 v1, .UInt32 v2 => v1 == v2
  | .UInt32 _, _ => false
  | .UInt64 v1, .UInt64 v2 => v1 == v2
  | .UInt64 _, _ => false
  | .Utf8 v1, .Utf8 v2 => v1 == v2
  | .Utf8 _, _ => false
  | .LargeUtf8 v1, .LargeUtf8 v2 => v1 == v2
  | .LargeUtf8 _, _ => false
  | .Binary v1, .Binary v2 => v1 == v2
  | .Binary _, _ => false
  | .LargeBinary v1, .LargeBinary v2 => v1 == v2
  | .LargeBinary _, _ => false
  | .ListSV v1 t1, .ListSV v2 t2 => ScalarValue.eqOptList v1 v2 && t1 == t2
  | .ListSV _ _, _ => false
  | .Date32 v1, .Date32 v2 => v1 == v2
  | .Date32 _, _ => false
  | .Date64 v1, .Date64 v2 => v1 == v2
  | .Date64 _, _ => false
  | .TimestampSecond v1 _, .TimestampSecond v2 _ => v1 == v2
  | .TimestampSecond _ _, _ => false
  | .TimestampMillisecond v1 _, .TimestampMillisecond v2 _ => v1 == v2
  | .TimestampMillisecond _ _, _ => false
  | .TimestampMicrosecond v1 _, .TimestampMicrosecond v2 _ => v1 == v2
  | .TimestampMicrosecond _ _, _ => false
  | .TimestampNanosecond v1 _, .TimestampNanosecond v2 _ => v1 == v2
  | .TimestampNanosecond _ _, _ => false
  | .IntervalYearMonth v1, .IntervalYearMonth v2 => v1 == v2
  | .IntervalYearMonth _, _ => false
  | .IntervalDayTime v1, .IntervalDayTime v2 => v1 == v2
  | .IntervalDayTime _, _ => false
  | .IntervalMonthDayNano v1, .IntervalMonthDayNano v2 => v1 == v2
  | .IntervalMonthDayNano _, _ => false
  | .Struct v1 t1, .Struct v2 t2 => ScalarValue.eqOptList v1 v2 && t1 == t2
  | .Struct _ _, _ => false
  | .Null, .Null => true
  | .Null, _ => false

/-- `Option<Box<Vec<ScalarValue>>>` equality through `ScalarValue`'s
`PartialEq`. -/
def ScalarValue.eqOptList : Option (List ScalarValue) → Option (List ScalarValue) → Bool
  | none, none => true
  | some l1, some l2 => ScalarValue.eqList l1 l2
  | _, _ => false

/-- `Vec<ScalarValue>` equality: equal lengths and element-wise
`ScalarValue::eq`. -/
def ScalarValue.eqList : List ScalarValue → List ScalarValue → Bool
  | [], [] => true
  | a :: as1, b :: bs1 => ScalarValue.eq a b && ScalarValue.eqList as1 bs1
  | _, _ => false

end

/-- Integer-width tag for a hasher write call. -/
inductive IntW : Type where
  | i8
  | i16
  | i32
  | i64
  | i128
  | u8
  | u16
  | u32
  | u64
  deriving DecidableEq

/-- One event written to the `Hasher` state.  Each constructor stands for one
write call of the Rust `Hash` implementations involved; composite writes that
are injective on their own (a `String` writes its bytes plus a `0xff`
terminator, a `Vec<u8>` writes a length prefix plus its bytes, the derived
`Hash` of `DataType` / `Field` writes a discriminant-prefixed traversal) are
kept as single tokens carrying the hashed value. -/
inductive HTok : Type where
  | oNone
  | oSome
  | hBool (b : Bool)
  | hInt (w : IntW) (v : Int)
  | hUsize (n : Nat)
  | hF32 (c : FpCanon)
  | hF64 (c : FpCanon)
  | hStr (s : String)
  | hBytes (bs : List Nat)
  | hLen (n : Nat)
  | hDType (t : DataTypeM)
  | hField (f : FieldS)
  deriving DecidableEq

/-- Tokens of `Option<T>::hash` for an integer payload of width `w`. -/
def hashOptInt (w : IntW) : Option Int → List HTok
  | none => [.oNone]
  | some v => [.oSome, .hInt w v]

/-- Tokens of `Option<OrderedFloat<f32>>::hash`. -/
def hashOptF32 : Option Fp → List HTok
  | none => [.oNone]
  | some f => [.oSome, .hF32 f.canon]

/-- Tokens of `Option<OrderedFloat<f64>>::hash`. -/
def hashOptF64 : Option Fp → List HTok
  | none => [.oNone]
  | some f => [.oSome, .hF64 f.canon]

/-- Tokens of `Option<String>::hash`. -/
def hashOptStr : Option String → List HTok
  | none => [.oNone]
  | some s => [.oSome, .hStr s]

/-- Tokens of `Option<Vec<u8>>::hash`. -/
def hashOptBytes : Option (List Nat) → List HTok
  | none => [.oNone]
  | some bs => [.oSome, .hBytes bs]

mutual

/-- Model of `impl Hash for ScalarValue` (scalar.rs lines 287-338) as the
sequence of events fed to the hasher.  Floats hash their `OrderedFloat`
canonical encoding; timestamps hash the payload only (the timezone is
ignored); `Null` hashes the stable `i32` sentinel `1`. -/
def ScalarValue.hashTokens : ScalarValue → List HTok
  | .Decimal128 v p s => hashOptInt .i128 v ++ [.hUsize p, .hUsize s]
  | .Boolean none => [.oNone]
  | .Boolean (some b) => [.oSome, .hBool b]
  | .Float32 v => hashOptF32 v
  | .Float64 v => hashOptF64 v
  | .Int8 v => hashOptInt .i8 v
  | .Int16 v => hashOptInt .i16 v
  | .Int32 v => hashOptInt .i32 v
  | .Int64 v => hashOptInt .i64 v
  | .UInt8 v => hashOptInt .u8 v
  | .UInt16 v => hashOptInt .u16 v
  | .UInt32 v => hashOptInt .u32 v
  | .UInt64 v => hashOptInt .u64 v
  | .Utf8 v => hashOptStr v
  | .LargeUtf8 v => hashOptStr v
  | .Binary v => hashOptBytes v
  | .LargeBinary v => hashOptBytes v
  | .ListSV v t => ScalarValue.hashTokensOptList v ++ [.hDType t]
  | .Date32 v => hashOptInt .i32 v
  | .Date64 v => hashOptInt .i64 v
  | .TimestampSecond v _ => hashOptInt .i64 v
  | .TimestampMillisecond v _ => hashOptInt .i64 v
  | .TimestampMicrosecond v _ => hashOptInt .i64 v
  | .TimestampNanosecond v _ => hashOptInt .i64 v
  | .IntervalYearMonth v => hashOptInt .i32 v
  | .IntervalDayTime v => hashOptInt .i64 v
  | .IntervalMonthDayNano v => hashOptInt .i128 v
  | .Struct v fields =>
      ScalarValue.hashTokensOptList v ++ (.hLen fields.length :: fields.map HTok.hField)
  | .Null => [.hInt .i32 1]

/-- Tokens of `Option<Box<Vec<ScalarValue>>>::hash`: the option discriminant,
then (for `Some`) the vector length prefix and the element tokens. -/
def ScalarValue.hashTokensOptList : Option (List ScalarValue) → List HTok
  | none => [.oNone]
  | some l => .oSome :: .hLen l.length :: ScalarValue.hashTokensList l

/-- Concatenated hash tokens of a list of scalars. -/
def ScalarValue.hashTokensList : List ScalarValue → List HTok
  | [] => []
  | s :: rest => ScalarValue.hashTokens s ++ ScalarValue.hashTokensList rest

end

/-- Model of `ScalarValue::is_null` (scalar.rs lines 632-659).  The arms list
exactly the variants of the source `matches!`; note that `Binary`,
`LargeBinary` and the three interval variants are absent from it. -/
def ScalarValue.is_null : ScalarValue → Bool
  | .Null
  | .Boolean none
  | .UInt8 none
  | .UInt16 none
  | .UInt32 none
  | .UInt64 none
  | .Int8 none
  | .Int16 none
  | .Int32 none
  | .Int64 none
  | .Float32 none
  | .Float64 none
  | .Date32 none
  | .Date64 none
  | .Utf8 none
  | .LargeUtf8 none
  | .ListSV none _
  | .TimestampSecond none _
  | .TimestampMillisecond none _
  | .TimestampMicrosecond none _
  | .TimestampNanosecond none _
  | .Struct none _
  | .Decimal128 none _ _ => true
  | _ => false

/-- Model of `ScalarValue::arithmetic_negate` (scalar.rs lines 610-629).
The source returns `Self` and panics on the catch-all arm; a panic is
modelled as `none`. -/
def ScalarValue.arithmetic_negate : ScalarValue → Option ScalarValue
  | .Boolean none => some (.Boolean none)
  | .Int8 none => some (.Int8 none)
  | .Int16 none => some (.Int16 none)
  | .Int32 none => some (.Int32 none)
  | .Int64 none => some (.Int64 none)
  | .Float32 none => some (.Float32 none)
  | .Float64 (some v) => some (.Float64 (some v.neg))
  | .Float32 (some v) => some (.Float32 (some v.neg))
  | .Int8 (some v) => some (.Int8 (some (-v)))
  | .Int16 (some v) => some (.Int16 (some (-v)))
  | .Int32 (some v) => some (.Int32 (some (-v)))
  | .Int64 (some v) => some (.Int64 (some (-v)))
  | .Decimal128 (some v) p s => some (.Decimal128 (some (-v)) p s)
  | _ => none

/-- Model of `arrow::datatypes::DECIMAL_MAX_PRECISION`. -/
def DECIMAL_MAX_PRECISION : Nat := 38

/-- Model of `ScalarValue::try_new_decimal128` (scalar.rs lines 543-556). -/
def ScalarValue.try_new_decimal128 (value : Int) (precision scale : Nat) :
    Except DataFusionError ScalarValue :=
  if precision ≤ DECIMAL_MAX_PRECISION ∧ scale ≤ precision then
    .ok (.Decimal128 (some value) precision scale)
  else
    .error .Internal

/-- Model of `ScalarValue::get_datatype` (scalar.rs lines 558-607). -/
def ScalarValue.get_datatype : ScalarValue → DataTypeM
  | .Boolean _ => .boolean
  | .UInt8 _ => .uint8
  | .UInt16 _ => .uint16
  | .UInt32 _ => .uint32
  | .UInt64 _ => .uint64
  | .Int8 _ => .int8
  | .Int16 _ => .int16
  | .Int32 _ => .int32
  | .Int64 _ => .int64
  | .Decimal128 _ p s => .decimal p s
  | .TimestampSecond _ tz => .timestamp .second tz
  | .TimestampMillisecond _ tz => .timestamp .millisecond tz
  | .TimestampMicrosecond _ tz => .timestamp .microsecond tz
  | .TimestampNanosecond _ tz => .timestamp .nanosecond tz
  | .Float32 _ => .float32
  | .Float64 _ => .float64
  | .Utf8 _ => .utf8
  | .LargeUtf8 _ => .largeUtf8
  | .Binary _ => .binary
  | .LargeBinary _ => .largeBinary
  | .ListSV _ t => .list "item" t true
  | .Date32 _ => .date32
  | .Date64 _ => .date64
  | .IntervalYearMonth _ => .interval .yearMonth
  | .IntervalDayTime _ => .interval .dayTime
  | .IntervalMonthDayNano _ => .interval .monthDayNano
  | .Struct _ fields => .structT (encodeFields fields)
  | .Null => .null



/-! Model of the arrow array surface consumed and produced by the scalar
layer.  Each constructor stands for one concrete arrow array type, so a
downcast in the source corresponds to a constructor match here.  Cell
payloads are `Option` values (none = null slot); a list array stores one
child array per row instead of a flat child plus offsets, which is the same
information `list_array.value(i)` exposes. -/

/-- Width/kind tag distinguishing the integer-payload primitive arrays. -/
inductive IntTy : Type where
  | i8
  | i16
  | i32
  | i64
  | u8
  | u16
  | u32
  | u64
  | date32T
  | date64T
  | ivYearMonth
  | ivDayTime
  | ivMonthDayNano
  deriving DecidableEq

/-- Data type of an integer-payload primitive array. -/
def IntTy.toDataType : IntTy → DataTypeM
  | .i8 => .int8
  | .i16 => .int16
  | .i32 => .int32
  | .i64 => .int64
  | .u8 => .uint8
  | .u16 => .uint16
  | .u32 => .uint32
  | .u64 => .uint64
  | .date32T => .date32
  | .date64T => .date64
  | .ivYearMonth => .interval .yearMonth
  | .ivDayTime => .interval .dayTime
  | .ivMonthDayNano => .interval .monthDayNano

/-- Model of `ArrayRef`: one constructor per concrete arrow array kind used
by the scalar layer.  `structA` carries its fields, its column arrays and its
length (a `StructArray::from(field_values)` has no top-level null bitmap);
`nullA` is `NullArray`; `dictA` is a dictionary array with its key type, key
slots and values array.  `FixedSizeList` arrays are not modelled (nothing in
the modelled code constructs one). -/
inductive ArrayM : Type where
  | boolA (vs : List (Option Bool))
  | intA (t : IntTy) (vs : List (Option Int))
  | fpA (isF64 : Bool) (vs : List (Option Fp))
  | decA (precision scale : Nat) (vs : List (Option Int))
  | tsA (unit : TimeUnitM) (tz : Option String) (vs : List (Option Int))
  | strA (isLarge : Bool) (vs : List (Option String))
  | binA (isLarge : Bool) (vs : List (Option (List Nat)))
  | listA (elemType : DataTypeM) (rows : List (Option ArrayM))
  | structA (fields : List FieldS) (cols : List ArrayM) (len : Nat)
  | nullA (len : Nat)
  | dictA (keyType : DataTypeM) (keys : List (Option Nat)) (values : ArrayM)

/-- `Array::data_type()`. -/
def ArrayM.dataType : ArrayM → DataTypeM
  | .boolA _ => .boolean
  | .intA t _ => t.toDataType
  | .fpA false _ => .float32
  | .fpA true _ => .float64
  | .decA p s _ => .decimal p s
  | .tsA u tz _ => .timestamp u tz
  | .strA false _ => .utf8
  | .strA true _ => .largeUtf8
  | .binA false _ => .binary
  | .binA true _ => .largeBinary
  | .listA t _ => .list "item" t true
  | .structA fields _ _ => .structT (encodeFields fields)
  | .nullA _ => .null
  | .dictA kt _ vals => .dictionary kt vals.dataType

/-- `Array::len()`. -/
def ArrayM.len : ArrayM → Nat
  | .boolA vs => vs.length
  | .intA _ vs => vs.length
  | .fpA _ vs => vs.length
  | .decA _ _ vs => vs.length
  | .tsA _ _ vs => vs.length
  | .strA _ vs => vs.length
  | .binA _ vs => vs.length
  | .listA _ rows => rows.length
  | .structA _ _ n => n
  | .nullA n => n
  | .dictA _ keys _ => keys.length

/-- `Array::is_valid(i)` (`is_null` is its negation).  `NullArray` overrides
it to `false`; a struct array built from columns has no null bitmap, so every
in-bounds slot is valid; a dictionary array delegates to its keys. -/
def ArrayM.isValid : ArrayM → Nat → Bool
  | .boolA vs, i => (vs.getD i none).isSome
  | .intA _ vs, i => (vs.getD i none).isSome
  | .fpA _ vs, i => (vs.getD i none).isSome
  | .decA _ _ vs, i => (vs.getD i none).isSome
  | .tsA _ _ vs, i => (vs.getD i none).isSome
  | .strA _ vs, i => (vs.getD i none).isSome
  | .binA _ vs, i => (vs.getD i none).isSome
  | .listA _ rows, i => (rows.getD i none).isSome
  | .structA _ _ n, i => i < n
  | .nullA _, _ => false
  | .dictA _ keys _, i => (keys.getD i none).isSome

/-- `array.data().is_null(i)`: reads the null bitmap directly, bypassing the
`NullArray` override — a `NullArray` and a struct array have no bitmap, so
this returns `false` for them. -/
def ArrayM.dataIsNull : ArrayM → Nat → Bool
  | .nullA _, _ => false
  | .structA _ _ _, _ => false
  | a, i => !(a.isValid i)

/-- Decode a `fieldCons` chain back into a field list (`none` on a chain that
does not encode a `Vec<Field>`, which no arrow value produces). -/
def decodeFields : DataTypeM → Option (List FieldS)
  | .fieldNil => some []
  | .fieldCons n t nl rest => (decodeFields rest).map (fun fs => (n, t, nl) :: fs)
  | _ => none

/-- Model of `impl TryFrom<&DataType> for ScalarValue` (scalar.rs lines
1726-1780): the typed-null scalar of a data type.  The source has no arm for
`Binary`, `LargeBinary` or the intervals, which therefore hit the
`NotImplemented` catch-all. -/
def ScalarValue.try_from_datatype : DataTypeM → Except DataFusionError ScalarValue
  | .boolean => .ok (.Boolean none)
  | .float64 => .ok (.Float64 none)
  | .float32 => .ok (.Float32 none)
  | .int8 => .ok (.Int8 none)
  | .int16 => .ok (.Int16 none)
  | .int32 => .ok (.Int32 none)
  | .int64 => .ok (.Int64 none)
  | .uint8 => .ok (.UInt8 none)
  | .uint16 => .ok (.UInt16 none)
  | .uint32 => .ok (.UInt32 none)
  | .uint64 => .ok (.UInt64 none)
  | .decimal p s => .ok (.Decimal128 none p s)
  | .utf8 => .ok (.Utf8 none)
  | .largeUtf8 => .ok (.LargeUtf8 none)
  | .date32 => .ok (.Date32 none)
  | .date64 => .ok (.Date64 none)
  | .timestamp .second tz => .ok (.TimestampSecond none tz)
  | .timestamp .millisecond tz => .ok (.TimestampMillisecond none tz)
  | .timestamp .microsecond tz => .ok (.TimestampMicrosecond none tz)
  | .timestamp .nanosecond tz => .ok (.TimestampNanosecond none tz)
  | .dictionary _ valueType => ScalarValue.try_from_datatype valueType
  | .list _ t _ => .ok (.ListSV none t)
  | .structT chain =>
      match decodeFields chain with
      | some fs => .ok (.Struct none fs)
      | none => .error .Internal
  | .null => .ok .Null
  | _ => .error .NotImplemented

/-- Keys of a dictionary array must have an integer type
(`get_dict_value` dispatch in scalar.rs lines 1376-1392). -/
def dictKeyTypeOK : DataTypeM → Bool
  | .int8 | .int16 | .int32 | .int64 | .uint8 | .uint16 | .uint32 | .uint64 => true
  | _ => false

/-- Model of `ScalarValue::get_decimal_value_from_array` (scalar.rs lines
1270-1282). -/
def ScalarValue.get_decimal_value (precision scale : Nat) (vs : List (Option Int))
    (index : Nat) : ScalarValue :=
  match vs.getD index none with
  | none => .Decimal128 none precision scale
  | some v => .Decimal128 (some v) precision scale

mutual

/-- Model of `ScalarValue::try_from_array` (scalar.rs lines 1285-1442).
A slot that is not valid yields the typed-null scalar of the array's data
type; otherwise the array is downcast per data type and the row is read.
Interval arrays have no arm and fall to the `NotImplemented` catch-all. -/
def ScalarValue.try_from_array (array : ArrayM) (index : Nat) :
    Except DataFusionError ScalarValue :=
  if !(array.isValid index) then
    ScalarValue.try_from_datatype array.dataType
  else
    match array with
    | .nullA _ => .ok .Null
    | .decA p s vs => .ok (ScalarValue.get_decimal_value p s vs index)
    | .boolA vs => .ok (.Boolean (vs.getD index none))
    | .fpA false vs => .ok (.Float32 (vs.getD index none))
    | .fpA true vs => .ok (.Float64 (vs.getD index none))
    | .intA .u64 vs => .ok (.UInt64 (vs.getD index none))
    | .intA .u32 vs => .ok (.UInt32 (vs.getD index none))
    | .intA .u16 vs => .ok (.UInt16 (vs.getD index none))
    | .intA .u8 vs => .ok (.UInt8 (vs.getD index none))
    | .intA .i64 vs => .ok (.Int64 (vs.getD index none))
    | .intA .i32 vs => .ok (.Int32 (vs.getD index none))
    | .intA .i16 vs => .ok (.Int16 (vs.getD index none))
    | .intA .i8 vs => .ok (.Int8 (vs.getD index none))
    | .binA false vs => .ok (.Binary (vs.getD index none))
    | .binA true vs => .ok (.LargeBinary (vs.getD index none))
    | .strA false vs => .ok (.Utf8 (vs.getD index none))
    | .strA true vs => .ok (.LargeUtf8 (vs.getD index none))
    | .listA t rows =>
        match hrow : rows.get? index with
        | none => .error .Panicked
        | some none => .ok (.ListSV none t)
        | some (some child) => do
            let scalars ← ScalarValue.rows_to_scalars child 0 child.len
            .ok (.ListSV (some scalars) t)
    | .intA .date32T vs => .ok (.Date32 (vs.getD index none))
    | .intA .date64T vs => .ok (.Date64 (vs.getD index none))
    | .tsA .second tz vs => .ok (.TimestampSecond (vs.getD index none) tz)
    | .tsA .millisecond tz vs => .ok (.TimestampMillisecond (vs.getD index none) tz)
    | .tsA .microsecond tz vs => .ok (.TimestampMicrosecond (vs.getD index none) tz)
    | .tsA .nanosecond tz vs => .ok (.TimestampNanosecond (vs.getD index none) tz)
    | .dictA keyType keys values =>
        if dictKeyTypeOK keyType then
          match keys.getD index none with
          | none => ScalarValue.try_from_datatype values.dataType
          | some valuesIndex => ScalarValue.try_from_array values valuesIndex
        else
          .error .Internal
    | .structA fields cols _ => do
        let fieldValues ← ScalarValue.cols_to_scalars cols index
        .ok (.Struct (some fieldValues) fields)
    | .intA .ivYearMonth _ => .error .NotImplemented
    | .intA .ivDayTime _ => .error .NotImplemented
    | .intA .ivMonthDayNano _ => .error .NotImplemented
termination_by (sizeOf array, 0)
decreasing_by
  all_goals simp_wf
  all_goals first
    | omega
    | (have h1 := List.sizeOf_lt_of_mem (List.get?_mem hrow)
       simp only [Option.sizeOf_eq] at h1  -- hmm may not exist; fallback below
       omega)
    | (have h1 := List.sizeOf_lt_of_mem (List.get?_mem hrow)
       have h2 : sizeOf (some child) = 1 + sizeOf child := by simp
       omega)

/-- Rows `i`, `i+1`, ..., `n-1` of the child array of a list row, as scalars
(the `(0..nested_array.len()).map(...)` loop of the `List` arm). -/
def ScalarValue.rows_to_scalars (child : ArrayM) (i n : Nat) :
    Except DataFusionError (List ScalarValue) :=
  if h : i < n then do
    let s ← ScalarValue.try_from_array child i
    let rest ← ScalarValue.rows_to_scalars child (i + 1) n
    .ok (s :: rest)
  else
    .ok []
termination_by (sizeOf child, n - i)

/-- One scalar per struct column at `index` (the `Struct` arm's loop). -/
def ScalarValue.cols_to_scalars (cols : List ArrayM) (index : Nat) :
    Except DataFusionError (List ScalarValue) :=
  match cols with
  | [] => .ok []
  | c :: cs => do
      let s ← ScalarValue.try_from_array c index
      let rest ← ScalarValue.cols_to_scalars cs index
      .ok (s :: rest)
termination_by (sizeOf cols, 0)

end

/-- Model of the `eq_array_primitive!` macro (scalar.rs lines 530-539) for a
payload compared with `==`: `Some(val)` needs a valid slot holding an equal
value, `None` needs an invalid slot. -/
def eqArrayPrim {α : Type} [BEq α] (vs : List (Option α)) (index : Nat)
    (val : Option α) : Bool :=
  match val with
  | some v =>
      match vs.getD index none with
      | some w => w == v
      | none => false
  | none => !(vs.getD index none).isSome

/-- The `eq_array_primitive!` macro at float type: `array.value(index) == *val`
is the IEEE `==` of `f32`/`f64`, not the `OrderedFloat` equality. -/
def eqArrayPrimFp (vs : List (Option Fp)) (index : Nat) (val : Option Fp) : Bool :=
  match val with
  | some v =>
      match vs.getD index none with
      | some w => Fp.ieeeEq w v
      | none => false
  | none => !(vs.getD index none).isSome

/-- Model of `ScalarValue::eq_array_decimal` (scalar.rs lines 1444-1459): the
array's precision/scale must equal the scalar's, then the row compares like a
primitive. -/
def eqArrayDecimal (arrayPrecision arrayScale : Nat) (vs : List (Option Int))
    (index : Nat) (value : Option Int) (precision scale : Nat) : Bool :=
  if arrayPrecision != precision || arrayScale != scale then
    false
  else
    match value with
    | none => !(vs.getD index none).isSome
    | some v =>
        match vs.getD index none with
        | some w => w == v
        | none => false

/-- The non-dictionary body of `ScalarValue::eq_array` (the `match self` of
scalar.rs lines 1483-1550).  Each arm downcasts the array to the concrete
type of the variant; a failed downcast is the source's `unwrap` panic
(`none`), and the `List` / `Struct` arms are `unimplemented!()` (`none`). -/
def ScalarValue.eq_array_nondict (s : ScalarValue) (array : ArrayM) (index : Nat) :
    Option Bool :=
  match s with
  | .Decimal128 v precision scale =>
      match array with
      | .decA p sc vs => some (eqArrayDecimal p sc vs index v precision scale)
      | _ => none
  | .Boolean val =>
      match array with
      | .boolA vs => some (eqArrayPrim vs index val)
      | _ => none
  | .Float32 val =>
      match array with
      | .fpA false vs => some (eqArrayPrimFp vs index val)
      | _ => none
  | .Float64 val =>
      match array with
      | .fpA true vs => some (eqArrayPrimFp vs index val)
      | _ => none
  | .Int8 val =>
      match array with
      | .intA .i8 vs => some (eqArrayPrim vs index val)
      | _ => none
  | .Int16 val =>
      match array with
      | .intA .i16 vs => some (eqArrayPrim vs index val)
      | _ => none
  | .Int32 val =>
      match array with
      | .intA .i32 vs => some (eqArrayPrim vs index val)
      | _ => none
  | .Int64 val =>
      match array with
      | .intA .i64 vs => some (eqArrayPrim vs index val)
      | _ => none
  | .UInt8 val =>
      match array with
      | .intA .u8 vs => some (eqArrayPrim vs index val)
      | _ => none
  | .UInt16 val =>
      match array with
      | .intA .u16 vs => some (eqArrayPrim vs index val)
      | _ => none
  | .UInt32 val =>
      match array with
      | .intA .u32 vs => some (eqArrayPrim vs index val)
      | _ => none
  | .UInt64 val =>
      match array with
      | .intA .u64 vs => some (eqArrayPrim vs index val)
      | _ => none
  | .Utf8 val =>
      match array with
      | .strA false vs => some (eqArrayPrim vs index val)
      | _ => none
  | .LargeUtf8 val =>
      match array with
      | .strA true vs => some (eqArrayPrim vs index val)
      | _ => none
  | .Binary val =>
      match array with
      | .binA false vs => some (eqArrayPrim vs index val)
      | _ => none
  | .LargeBinary val =>
      match array with
      | .binA true vs => some (eqArrayPrim vs index val)
      | _ => none
  | .ListSV _ _ => none
  | .Date32 val =>
      match array with
      | .intA .date32T vs => some (eqArrayPrim vs index val)
      | _ => none
  | .Date64 val =>
      match array with
      | .intA .date64T vs => some (eqArrayPrim vs index val)
      | _ => none
  | .TimestampSecond val _ =>
      match array with
      | .tsA .second _ vs => some (eqArrayPrim vs index val)
      | _ => none
  | .TimestampMillisecond val _ =>
      match array with
      | .tsA .millisecond _ vs => some (eqArrayPrim vs index val)
      | _ => none
  | .TimestampMicrosecond val _ =>
      match array with
      | .tsA .microsecond _ vs => some (eqArrayPrim vs index val)
      | _ => none
  | .TimestampNanosecond val _ =>
      match array with
      | .tsA .nanosecond _ vs => some (eqArrayPrim vs index val)
      | _ => none
  | .IntervalYearMonth val =>
      match array with
      | .intA .ivYearMonth vs => some (eqArrayPrim vs index val)
      | _ => none
  | .IntervalDayTime val =>
      match array with
      | .intA .ivDayTime vs => some (eqArrayPrim vs index val)
      | _ => none
  | .IntervalMonthDayNano val =>
      match array with
      | .intA .ivMonthDayNano vs => some (eqArrayPrim vs index val)
      | _ => none
  | .Struct _ _ => none
  | .Null => some (array.dataIsNull index)

mutual

/-- Model of `ScalarValue::eq_array` (scalar.rs lines 1478-1551): dictionary
arrays are decoded and recursed into first, all other arrays dispatch on the
scalar's variant. -/
def ScalarValue.eq_array (s : ScalarValue) (array : ArrayM) (index : Nat) :
    Option Bool :=
  match array with
  | .dictA keyType keys values =>
      ScalarValue.eq_array_dictionary s keyType keys values index
  | a => ScalarValue.eq_array_nondict s a index
termination_by sizeOf array
decreasing_by
  simp_wf
  cases keys <;> simp <;> omega

/-- Model of `ScalarValue::eq_array_dictionary` (scalar.rs lines 1555-1577):
look up the key; a null key compares as `self.is_null()`, a valid key recurses
into the values array; a non-integer key type is `unreachable!()`. -/
def ScalarValue.eq_array_dictionary (s : ScalarValue) (keyType : DataTypeM)
    (keys : List (Option Nat)) (values : ArrayM) (index : Nat) : Option Bool :=
  if dictKeyTypeOK keyType then
    match keys.getD index none with
    | some valuesIndex => ScalarValue.eq_array s values valuesIndex
    | none => some s.is_null
  else
    none
termination_by sizeOf values + 1

end

/-- Scalar variants excluded from `eq_array`'s claim: `List` and `Struct` are
`unimplemented!()` there, and a `Null` scalar consults the raw null bitmap
(`data().is_null`), which disagrees with `try_from_array` on `NullArray`. -/
def ScalarValue.eq_array_supported : ScalarValue → Bool
  | .ListSV _ _ | .Struct _ _ | .Null => false
  | _ => true

/-- No NaN payload in a float scalar (NaN is where IEEE `==` in `eq_array`
and the `OrderedFloat` equality in `PartialEq` disagree). -/
def ScalarValue.float_not_nan : ScalarValue → Bool
  | .Float32 (some (.nan _)) | .Float64 (some (.nan _)) => false
  | _ => true

/-- The scalar variant holding the row of an integer-payload array. -/
def IntTy.toScalar : IntTy → Option Int → ScalarValue
  | .i8, v => .Int8 v
  | .i16, v => .Int16 v
  | .i32, v => .Int32 v
  | .i64, v => .Int64 v
  | .u8, v => .UInt8 v
  | .u16, v => .UInt16 v
  | .u32, v => .UInt32 v
  | .u64, v => .UInt64 v
  | .date32T, v => .Date32 v
  | .date64T, v => .Date64 v
  | .ivYearMonth, v => .IntervalYearMonth v
  | .ivDayTime, v => .IntervalDayTime v
  | .ivMonthDayNano, v => .IntervalMonthDayNano v


/-! Materialization: `to_array_of_size` and the `iter_to_array` family.
These functions recurse through nested scalars and through typed-null
scalars rebuilt from data types, so they take an explicit fuel parameter;
exhausted fuel returns the failure value, which never happens for the
concrete inputs evaluated below. -/

/-- Element extractors of the `build_values_list!` arms: the scalar must be
the builder's variant, else the macro panics. -/
def extractBoolean : ScalarValue → Option (Option Bool)
  | .Boolean v => some v
  | _ => none

/-- Extractor for the integer-payload builders. -/
def extractIntTy : IntTy → ScalarValue → Option (Option Int)
  | .i8, .Int8 v => some v
  | .i16, .Int16 v => some v
  | .i32, .Int32 v => some v
  | .i64, .Int64 v => some v
  | .u8, .UInt8 v => some v
  | .u16, .UInt16 v => some v
  | .u32, .UInt32 v => some v
  | .u64, .UInt64 v => some v
  | .date32T, .Date32 v => some v
  | .date64T, .Date64 v => some v
  | .ivYearMonth, .IntervalYearMonth v => some v
  | .ivDayTime, .IntervalDayTime v => some v
  | .ivMonthDayNano, .IntervalMonthDayNano v => some v
  | _, _ => none

/-- Extractor of the `build_values_list_tz!` arms: the pattern
`ScalarValue::$SCALAR_TY(v, _)` ignores the element's timezone. -/
def extractTs : TimeUnitM → ScalarValue → Option (Option Int)
  | .second, .TimestampSecond v _ => some v
  | .millisecond, .TimestampMillisecond v _ => some v
  | .microsecond, .TimestampMicrosecond v _ => some v
  | .nanosecond, .TimestampNanosecond v _ => some v
  | _, _ => none

/-- String and float extractors. -/
def extractStr : ScalarValue → Option (Option String)
  | .Utf8 v => some v
  | _ => none

def extractLargeStr : ScalarValue → Option (Option String)
  | .LargeUtf8 v => some v
  | _ => none

def extractF32 : ScalarValue → Option (Option Fp)
  | .Float32 v => some v
  | _ => none

def extractF64 : ScalarValue → Option (Option Fp)
  | .Float64 v => some v
  | _ => none

def extractBin : ScalarValue → Option (Option (List Nat))
  | .Binary v => some v
  | _ => none

def extractLargeBin : ScalarValue → Option (Option (List Nat))
  | .LargeBinary v => some v
  | _ => none

def extractDecimal : ScalarValue → Option (Option Int)
  | .Decimal128 v _ _ => some v
  | _ => none

/-- Model of `build_values_list!` / `build_values_list_tz!` (scalar.rs lines
458-502): extract every element with the builder's pattern (a mismatch is
`panic!("Incompatible ScalarValue for list")`), build one child array of the
builder's type `childT`, and emit `size` copies of that row. -/
def buildValuesList {α : Type} (extract : ScalarValue → Option (Option α))
    (mkChild : List (Option α) → ArrayM) (childT : DataTypeM)
    (values : List ScalarValue) (size : Nat) : Option ArrayM := do
  let cells ← values.mapM extract
  pure (.listA childT (List.replicate size (some (mkChild cells))))

/-- Model of the `build_list!` macro (scalar.rs lines 388-407): an absent
payload short-circuits to `new_null_array(List(Field("item", dt, true)), size)`. -/
def buildList {α : Type} (extract : ScalarValue → Option (Option α))
    (mkChild : List (Option α) → ArrayM) (childT : DataTypeM)
    (values : Option (List ScalarValue)) (size : Nat) : Option ArrayM :=
  match values with
  | none => some (.listA childT (List.replicate size none))
  | some vals => buildValuesList extract mkChild childT vals size

/-- Model of the `build_timestamp_list!` macro (scalar.rs lines 409-456).
The `None` case preserves the scalar's unit and timezone; the `Some` case
dispatches per `TimeUnit` to a typed builder, mapping Microsecond to the
MILLISECOND builder and Millisecond to the MICROSECOND builder (the swap the
spec flags), and the builders carry no timezone. -/
def build_timestamp_list (unit : TimeUnitM) (tz : Option String)
    (values : Option (List ScalarValue)) (size : Nat) : Option ArrayM :=
  match values with
  | none => some (.listA (.timestamp unit tz) (List.replicate size none))
  | some vals =>
      match unit with
      | .second =>
          buildValuesList (extractTs .second) (.tsA .second none)
            (.timestamp .second none) vals size
      | .microsecond =>
          buildValuesList (extractTs .millisecond) (.tsA .millisecond none)
            (.timestamp .millisecond none) vals size
      | .millisecond =>
          buildValuesList (extractTs .microsecond) (.tsA .microsecond none)
            (.timestamp .microsecond none) vals size
      | .nanosecond =>
          buildValuesList (extractTs .nanosecond) (.tsA .nanosecond none)
            (.timestamp .nanosecond none) vals size

/-- Collect one payload per scalar with the given extractor; a mismatch is
the error `err` (`Internal` for the checked `iter_to_array` collectors,
`Panicked` for the macro paths that panic). -/
def collectPrim {α : Type} (extract : ScalarValue → Option (Option α))
    (err : DataFusionError) : List ScalarValue → Except DataFusionError (List (Option α))
  | [] => .ok []
  | s :: rest =>
      match extract s with
      | none => .error err
      | some v => (collectPrim extract err rest).map (fun vs => v :: vs)

/-- Model of `iter_to_null_array` (scalar.rs lines 982-991): every element
must be `Null` (`unreachable!()` otherwise). -/
def iter_to_null_array (scalars : List ScalarValue) : Except DataFusionError ArrayM :=
  if scalars.all (fun s => match s with | .Null => true | _ => false) then
    .ok (.nullA scalars.length)
  else
    .error .Panicked

/-- Model of `iter_to_decimal_array` (scalar.rs lines 993-1007): collect the
decimal payloads (`unreachable!()` on any other variant), then
`with_precision_and_scale` validates the precision and scale. -/
def iter_to_decimal_array (scalars : List ScalarValue) (precision scale : Nat) :
    Except DataFusionError ArrayM := do
  let cells ← collectPrim extractDecimal .Panicked scalars
  if precision ≤ DECIMAL_MAX_PRECISION ∧ scale ≤ precision then
    .ok (.decA precision scale cells)
  else
    .error .ArrowError

/-- Rows of `build_array_list_primitive!` / `build_array_list_string!`
(scalar.rs lines 776-841): every scalar must be a `List`, and every element
of a present payload must match the element extractor. -/
def listPrimRows {α : Type} (extract : ScalarValue → Option (Option α))
    (err : DataFusionError) :
    List ScalarValue → Except DataFusionError (List (Option (List (Option α))))
  | [] => .ok []
  | .ListSV xs _ :: rest => do
      let cells ← match xs with
        | none => pure none
        | some elems =>
            match elems.mapM extract with
            | none => Except.error err
            | some cs => pure (some cs)
      let others ← listPrimRows extract err rest
      .ok (cells :: others)
  | _ :: _ => .error err

/-- Row-major collection of struct cells for the `DataType::Struct` arm of
`iter_to_array` (scalar.rs lines 926-969): each scalar must be a `Struct`;
a present payload is indexed per column (`values[c]`, an out-of-bounds index
panics), an absent payload rebuilds a typed null per the scalar's own fields
(`fields[c]`, likewise panicking out of bounds, with `try_from` errors
propagated). -/
def structRows (n : Nat) : List ScalarValue → Except DataFusionError (List (List ScalarValue))
  | [] => .ok []
  | .Struct (some values) _ :: rest => do
      let row ← (List.range n).mapM (fun c =>
        match values.get? c with
        | none => Except.error DataFusionError.Panicked
        | some v => Except.ok v)
      let others ← structRows n rest
      .ok (row :: others)
  | .Struct none fields :: rest => do
      let row ← (List.range n).mapM (fun c =>
        match fields.get? c with
        | none => Except.error DataFusionError.Panicked
        | some f => ScalarValue.try_from_datatype f.2.1)
      let others ← structRows n rest
      .ok (row :: others)
  | _ :: _ => .error .Internal

mutual

/-- Model of `ScalarValue::iter_to_array` (scalar.rs lines 697-980): the
logical type is taken from the first scalar (empty input is an `Internal`
error) and dispatched on; value collectors fail with `Internal` on a
mismatched variant, the list-of-primitive collectors panic instead, and
timestamp collectors drop the timezone (the collected arrays carry none).
The fuel only bounds the recursion into nested lists and structs. -/
def ScalarValue.iter_to_array : Nat → List ScalarValue → Except DataFusionError ArrayM
  | 0, _ => .error .Panicked
  | fuel + 1, scalars =>
    match scalars with
    | [] => .error .Internal
    | s0 :: _ =>
      match s0.get_datatype with
      | .decimal p s => iter_to_decimal_array scalars p s
      | .null => iter_to_null_array scalars
      | .boolean => (collectPrim extractBoolean .Internal scalars).map .boolA
      | .float32 => (collectPrim extractF32 .Internal scalars).map (.fpA false)
      | .float64 => (collectPrim extractF64 .Internal scalars).map (.fpA true)
      | .int8 => (collectPrim (extractIntTy .i8) .Internal scalars).map (.intA .i8)
      | .int16 => (collectPrim (extractIntTy .i16) .Internal scalars).map (.intA .i16)
      | .int32 => (collectPrim (extractIntTy .i32) .Internal scalars).map (.intA .i32)
      | .int64 => (collectPrim (extractIntTy .i64) .Internal scalars).map (.intA .i64)
      | .uint8 => (collectPrim (extractIntTy .u8) .Internal scalars).map (.intA .u8)
      | .uint16 => (collectPrim (extractIntTy .u16) .Internal scalars).map (.intA .u16)
      | .uint32 => (collectPrim (extractIntTy .u32) .Internal scalars).map (.intA .u32)
      | .uint64 => (collectPrim (extractIntTy .u64) .Internal scalars).map (.intA .u64)
      | .utf8 => (collectPrim extractStr .Internal scalars).map (.strA false)
      | .largeUtf8 => (collectPrim extractLargeStr .Internal scalars).map (.strA true)
      | .binary => (collectPrim extractBin .Internal scalars).map (.binA false)
      | .largeBinary => (collectPrim extractLargeBin .Internal scalars).map (.binA true)
      | .date32 => (collectPrim (extractIntTy .date32T) .Internal scalars).map (.intA .date32T)
      | .date64 => (collectPrim (extractIntTy .date64T) .Internal scalars).map (.intA .date64T)
      | .timestamp u _ => (collectPrim (extractTs u) .Internal scalars).map (.tsA u none)
      | .interval .dayTime =>
          (collectPrim (extractIntTy .ivDayTime) .Internal scalars).map (.intA .ivDayTime)
      | .interval .yearMonth =>
          (collectPrim (extractIntTy .ivYearMonth) .Internal scalars).map (.intA .ivYearMonth)
      | .list nm t nb =>
          match t with
          | .int8 => (listPrimRows (extractIntTy .i8) .Panicked scalars).map
              (fun rows => .listA .int8 (rows.map (Option.map (.intA .i8))))
          | .int16 => (listPrimRows (extractIntTy .i16) .Panicked scalars).map
              (fun rows => .listA .int16 (rows.map (Option.map (.intA .i16))))
          | .int32 => (listPrimRows (extractIntTy .i32) .Panicked scalars).map
              (fun rows => .listA .int32 (rows.map (Option.map (.intA .i32))))
          | .int64 => (listPrimRows (extractIntTy .i64) .Panicked scalars).map
              (fun rows => .listA .int64 (rows.map (Option.map (.intA .i64))))
          | .uint8 => (listPrimRows (extractIntTy .u8) .Panicked scalars).map
              (fun rows => .listA .uint8 (rows.map (Option.map (.intA .u8))))
          | .uint16 => (listPrimRows (extractIntTy .u16) .Panicked scalars).map
              (fun rows => .listA .uint16 (rows.map (Option.map (.intA .u16))))
          | .uint32 => (listPrimRows (extractIntTy .u32) .Panicked scalars).map
              (fun rows => .listA .uint32 (rows.map (Option.map (.intA .u32))))
          | .uint64 => (listPrimRows (extractIntTy .u64) .Panicked scalars).map
              (fun rows => .listA .uint64 (rows.map (Option.map (.intA .u64))))
          | .float32 => (listPrimRows extractF32 .Panicked scalars).map
              (fun rows => .listA .float32 (rows.map (Option.map (.fpA false))))
          | .float64 => (listPrimRows extractF64 .Panicked scalars).map
              (fun rows => .listA .float64 (rows.map (Option.map (.fpA true))))
          | .utf8 => (listPrimRows extractStr .Internal scalars).map
              (fun rows => .listA .utf8 (rows.map (Option.map (.strA false))))
          | .largeUtf8 => (listPrimRows extractLargeStr .Internal scalars).map
              (fun rows => .listA .largeUtf8 (rows.map (Option.map (.strA true))))
          | _ => ScalarValue.iter_to_array_list fuel scalars (.list nm t nb)
      | .structT chain =>
          match decodeFields chain with
          | none => .error .Panicked
          | some fields => do
              let rows ← structRows fields.length scalars
              let cols ← ScalarValue.structArrays fuel fields 0 rows
              .ok (.structA fields cols scalars.length)
      | _ => .error .Internal
termination_by fuel _ => (fuel, 0)
decreasing_by
  all_goals simp_wf
  all_goals first
    | omega
    | (apply Prod.Lex.left; omega)
    | (apply Prod.Lex.right; omega)

/-- Model of `iter_to_array_list` (scalar.rs lines 1009-1074): each scalar
must be a `List`; present payloads become child arrays via `iter_to_array`
and absent payloads null rows.  `arrow::compute::concat` fails on zero valid
children or on children of differing types, and the final
`ArrayDataBuilder::build` validates the child type against the declared
list element type. -/
def ScalarValue.iter_to_array_list (fuel : Nat) (scalars : List ScalarValue)
    (dt : DataTypeM) : Except DataFusionError ArrayM := do
  let rows ← ScalarValue.listRows fuel scalars
  match rows.filterMap id with
  | [] => .error .ArrowError
  | e0 :: restE =>
      if restE.all (fun e => e.dataType == e0.dataType) then
        match dt with
        | .list _ elemT _ =>
            if e0.dataType == elemT then .ok (.listA elemT rows)
            else .error .ArrowError
        | _ => .error .ArrowError
      else .error .ArrowError
termination_by (fuel, scalars.length + 2)
decreasing_by
  all_goals simp_wf
  all_goals first
    | omega
    | (apply Prod.Lex.left; omega)
    | (apply Prod.Lex.right; omega)

/-- The per-scalar loop of `iter_to_array_list`. -/
def ScalarValue.listRows (fuel : Nat) :
    List ScalarValue → Except DataFusionError (List (Option ArrayM))
  | [] => .ok []
  | .ListSV (some values) _ :: rest => do
      let child ← ScalarValue.iter_to_array fuel values
      let others ← ScalarValue.listRows fuel rest
      .ok (some child :: others)
  | .ListSV none _ :: rest =>
      (ScalarValue.listRows fuel rest).map (fun os => none :: os)
  | _ :: _ => .error .Internal
termination_by scalars => (fuel, scalars.length + 1)
decreasing_by
  all_goals simp_wf
  all_goals first
    | omega
    | (apply Prod.Lex.left; omega)
    | (apply Prod.Lex.right; omega)

/-- The per-column `iter_to_array` recursion of the `Struct` arm. -/
def ScalarValue.structArrays (fuel : Nat) (fields : List FieldS) (c : Nat)
    (rows : List (List ScalarValue)) : Except DataFusionError (List ArrayM) :=
  match fields with
  | [] => .ok []
  | _ :: rest => do
      let arr ← ScalarValue.iter_to_array fuel (rows.map (fun r => r.getD c .Null))
      let others ← ScalarValue.structArrays fuel rest (c + 1) rows
      .ok (arr :: others)
termination_by (fuel, fields.length + 1)
decreasing_by
  all_goals simp_wf
  all_goals first
    | omega
    | (apply Prod.Lex.left; omega)
    | (apply Prod.Lex.right; omega)

end

mutual

/-- Model of `ScalarValue::to_array_of_size` (scalar.rs lines 1090-1268).
Panics surface as `none`: `build_decimal_array`'s unwrap of
`with_precision_and_scale`, the `build_values_list!` element-type mismatch,
the `.unwrap()` on the list fallback path, and the `.expect` on a struct
field type `try_from` cannot handle.  `build_array_from_option!` produces
the same all-null arrays as `new_null_array` for absent payloads, so both
cases collapse to one `List.replicate`. -/
def ScalarValue.to_array_of_size : Nat → ScalarValue → Nat → Option ArrayM
  | 0, _, _ => none
  | fuel + 1, s, size =>
    match s with
    | .Decimal128 e p sc =>
        if p ≤ DECIMAL_MAX_PRECISION ∧ sc ≤ p then
          some (.decA p sc (List.replicate size e))
        else none
    | .Boolean e => some (.boolA (List.replicate size e))
    | .Float64 e => some (.fpA true (List.replicate size e))
    | .Float32 e => some (.fpA false (List.replicate size e))
    | .Int8 e => some (.intA .i8 (List.replicate size e))
    | .Int16 e => some (.intA .i16 (List.replicate size e))
    | .Int32 e => some (.intA .i32 (List.replicate size e))
    | .Int64 e => some (.intA .i64 (List.replicate size e))
    | .UInt8 e => some (.intA .u8 (List.replicate size e))
    | .UInt16 e => some (.intA .u16 (List.replicate size e))
    | .UInt32 e => some (.intA .u32 (List.replicate size e))
    | .UInt64 e => some (.intA .u64 (List.replicate size e))
    | .TimestampSecond e tz => some (.tsA .second tz (List.replicate size e))
    | .TimestampMillisecond e tz => some (.tsA .millisecond tz (List.replicate size e))
    | .TimestampMicrosecond e tz => some (.tsA .microsecond tz (List.replicate size e))
    | .TimestampNanosecond e tz => some (.tsA .nanosecond tz (List.replicate size e))
    | .Utf8 e => some (.strA false (List.replicate size e))
    | .LargeUtf8 e => some (.strA true (List.replicate size e))
    | .Binary e => some (.binA false (List.replicate size e))
    | .LargeBinary e => some (.binA true (List.replicate size e))
    | .ListSV values dt =>
        match dt with
        | .boolean => buildList extractBoolean .boolA .boolean values size
        | .int8 => buildList (extractIntTy .i8) (.intA .i8) .int8 values size
        | .int16 => buildList (extractIntTy .i16) (.intA .i16) .int16 values size
        | .int32 => buildList (extractIntTy .i32) (.intA .i32) .int32 values size
        | .int64 => buildList (extractIntTy .i64) (.intA .i64) .int64 values size
        | .uint8 => buildList (extractIntTy .u8) (.intA .u8) .uint8 values size
        | .uint16 => buildList (extractIntTy .u16) (.intA .u16) .uint16 values size
        | .uint32 => buildList (extractIntTy .u32) (.intA .u32) .uint32 values size
        | .uint64 => buildList (extractIntTy .u64) (.intA .u64) .uint64 values size
        | .utf8 => buildList extractStr (.strA false) .utf8 values size
        | .float32 => buildList extractF32 (.fpA false) .float32 values size
        | .float64 => buildList extractF64 (.fpA true) .float64 values size
        | .timestamp unit tz => build_timestamp_list unit tz values size
        | .largeUtf8 => buildList extractLargeStr (.strA true) .largeUtf8 values size
        | _ =>
            match ScalarValue.iter_to_array_list fuel
                (List.replicate size (.ListSV values dt)) (.list "item" dt true) with
            | .ok arr => some arr
            | .error _ => none
    | .Date32 e => some (.intA .date32T (List.replicate size e))
    | .Date64 e => some (.intA .date64T (List.replicate size e))
    | .IntervalDayTime e => some (.intA .ivDayTime (List.replicate size e))
    | .IntervalYearMonth e => some (.intA .ivYearMonth (List.replicate size e))
    | .IntervalMonthDayNano e => some (.intA .ivMonthDayNano (List.replicate size e))
    | .Struct values fields =>
        match values with
        | some vals => do
            let cols ← ScalarValue.structColsOfSize fuel (fields.zip vals) size
            some (.structA ((fields.zip vals).map Prod.fst) cols size)
        | none => do
            let cols ← ScalarValue.structNullColsOfSize fuel fields size
            some (.structA fields cols size)
    | .Null => some (.nullA size)
termination_by fuel _ _ => (fuel, 0)
decreasing_by
  all_goals simp_wf
  all_goals first
    | omega
    | (apply Prod.Lex.left; omega)
    | (apply Prod.Lex.right; omega)

/-- The per-field recursion of the `Struct(Some values, fields)` arm. -/
def ScalarValue.structColsOfSize (fuel : Nat) :
    List (FieldS × ScalarValue) → Nat → Option (List ArrayM)
  | [], _ => some []
  | (_, v) :: rest, size => do
      let arr ← ScalarValue.to_array_of_size fuel v size
      let others ← ScalarValue.structColsOfSize fuel rest size
      some (arr :: others)
termination_by l _ => (fuel, l.length + 1)
decreasing_by
  all_goals simp_wf
  all_goals first
    | omega
    | (apply Prod.Lex.left; omega)
    | (apply Prod.Lex.right; omega)

/-- The per-field recursion of the `Struct(None, fields)` arm: each field's
typed null is rebuilt with `try_from` (an error there is an `.expect`
panic) and materialized. -/
def ScalarValue.structNullColsOfSize (fuel : Nat) :
    List FieldS → Nat → Option (List ArrayM)
  | [], _ => some []
  | f :: rest, size =>
      match ScalarValue.try_from_datatype f.2.1 with
      | .error _ => none
      | .ok nv => do
          let arr ← ScalarValue.to_array_of_size fuel nv size
          let others ← ScalarValue.structNullColsOfSize fuel rest size
          some (arr :: others)
termination_by l _ => (fuel, l.length + 1)
decreasing_by
  all_goals simp_wf
  all_goals first
    | omega
    | (apply Prod.Lex.left; omega)
    | (apply Prod.Lex.right; omega)

end


/-- Matching condition of C3: the array's data type equals the scalar's
declared type, or the array is a dictionary (with integer keys in bounds)
over a matching values array — the decode-and-recurse path. -/
inductive MatchOK : ScalarValue → ArrayM → Prop
  | base (s : ScalarValue) (a : ArrayM) (h : a.dataType = s.get_datatype) : MatchOK s a
  | dict (s : ScalarValue) (kt : DataTypeM) (keys : List (Option Nat)) (values : ArrayM)
      (hk : dictKeyTypeOK kt = true)
      (hb : ∀ k ∈ keys, ∀ j, k = some j → j < values.len)
      (hm : MatchOK s values) : MatchOK s (.dictA kt keys values)



/-! Expressions and the optimizer's children/rebuild pair
(core/src/optimizer/utils.rs).  The `Expr` enum itself lives in the
`datafusion_expr` crate, which is not part of this source tree, so its shape
is modelled from the spec: function handles (`ScalarFunction` names, UDF
names, window function names) are strings, window frames and subqueries are
opaque `Nat` handles, and a column is its optional relation qualifier with
its name. -/

/-- Modelled from the spec: a column reference. -/
abbrev ColumnM := Option String × String

mutual

/-- Modelled from the spec: the `Expr` enum of `datafusion_expr`. -/
inductive ExprM : Type where
  | aliasE (e : ExprM) (name : String)
  | column (c : ColumnM)
  | scalarVariable (ty : DataTypeM) (names : List String)
  | literal (v : ScalarValue)
  | binaryExpr (left : ExprM) (op : String) (right : ExprM)
  | notE (e : ExprM)
  | isNotNull (e : ExprM)
  | isNull (e : ExprM)
  | negative (e : ExprM)
  | getIndexedField (e : ExprM) (key : ScalarValue)
  | between (e : ExprM) (negated : Bool) (low : ExprM) (high : ExprM)
  | caseE (base : Option ExprM) (whenThen : List (ExprM × ExprM))
      (elseE : Option ExprM)
  | cast (e : ExprM) (ty : DataTypeM)
  | tryCast (e : ExprM) (ty : DataTypeM)
  | sortE (e : ExprM) (asc : Bool) (nullsFirst : Bool)
  | scalarFunction (f : String) (args : List ExprM)
  | scalarUDF (f : String) (args : List ExprM)
  | aggregateFunction (f : String) (args : List ExprM) (distinct : Bool)
  | windowFunction (f : String) (args : List ExprM) (partitionBy : List ExprM)
      (orderBy : List ExprM) (windowFrame : Option Nat)
  | aggregateUDF (f : String) (args : List ExprM)
  | inList (e : ExprM) (list : List ExprM) (negated : Bool)
  | existsE (subquery : Nat) (negated : Bool)
  | inSubquery (e : ExprM) (subquery : Nat) (negated : Bool)
  | scalarSubquery (subquery : Nat)
  | wildcard
  | qualifiedWildcard (qualifier : String)
  | groupingSet (g : GroupingSetM)

/-- Modelled from the spec: grouping sets. -/
inductive GroupingSetM : Type where
  | rollup (exprs : List ExprM)
  | cube (exprs : List ExprM)
  | groupingSets (sets : List (List ExprM))

end

/-- The sentinel markers of optimizer/utils.rs lines 38-41. -/
def CASE_EXPR_MARKER : String := "__DATAFUSION_CASE_EXPR__"

def CASE_ELSE_MARKER : String := "__DATAFUSION_CASE_ELSE__"

def WINDOW_PARTITION_MARKER : String := "__DATAFUSION_WINDOW_PARTITION__"

def WINDOW_SORT_MARKER : String := "__DATAFUSION_WINDOW_SORT__"

/-- `lit(marker)` as used by the marker pushes. -/
def litStr (s : String) : ExprM := .literal (.Utf8 (some s))

/-- The `matches!(expr, Expr::Literal(ScalarValue::Utf8(Some(str))) if str == m)`
marker test. -/
def isMarker (m : String) : ExprM → Bool
  | .literal (.Utf8 (some s)) => s == m
  | _ => false

/-- Model of `expr_sub_expressions` (optimizer/utils.rs lines 252-338). -/
def ExprM.expr_sub_expressions : ExprM → Except DataFusionError (List ExprM)
  | .binaryExpr l _ r => .ok [l, r]
  | .isNull e | .isNotNull e | .cast e _ | .tryCast e _ | .aliasE e _
  | .notE e | .negative e | .sortE e _ _ | .getIndexedField e _ => .ok [e]
  | .scalarFunction _ args | .scalarUDF _ args
  | .aggregateFunction _ args _ | .aggregateUDF _ args => .ok args
  | .groupingSet (.rollup exprs) => .ok exprs
  | .groupingSet (.cube exprs) => .ok exprs
  | .groupingSet (.groupingSets _) => .error .Plan
  | .windowFunction _ args pb ob _ =>
      .ok (args ++ litStr WINDOW_PARTITION_MARKER :: (pb
        ++ litStr WINDOW_SORT_MARKER :: ob))
  | .caseE base whenThen elseE =>
      .ok ((match base with
            | some e => [litStr CASE_EXPR_MARKER, e]
            | none => [])
        ++ whenThen.flatMap (fun p => [p.1, p.2])
        ++ (match elseE with
            | some e => [litStr CASE_ELSE_MARKER, e]
            | none => []))
  | .column _ | .literal _ | .scalarVariable _ _ => .ok []
  | .between e _ low high => .ok [e, low, high]
  | .inList e list _ => .ok (e :: list)
  | .existsE _ _ => .ok []
  | .inSubquery e _ _ => .ok [e]
  | .scalarSubquery _ => .ok []
  | .wildcard | .qualifiedWildcard _ => .error .Internal

/-- Rust slice indexing `expressions[i]`: out of bounds panics. -/
def idxE (l : List ExprM) (i : Nat) : Except DataFusionError ExprM :=
  match l.get? i with
  | some e => .ok e
  | none => .error .Panicked

/-- The `Expr::Case` reassembly loop of `rewrite_expression` (lines 423-458):
a `CASE_EXPR_MARKER` or `CASE_ELSE_MARKER` consumes the following expression
into the base or else slot (overwriting), anything else pairs with its
successor as a when/then arm; `expressions[i + 1]` can panic out of bounds. -/
def caseLoop : List ExprM → Option ExprM → List (ExprM × ExprM) → Option ExprM →
    Except DataFusionError (Option ExprM × List (ExprM × ExprM) × Option ExprM)
  | [], b, wt, e => .ok (b, wt, e)
  | x :: rest, b, wt, e =>
      if isMarker CASE_EXPR_MARKER x then
        match rest with
        | [] => .error .Panicked
        | y :: rest2 => caseLoop rest2 (some y) wt e
      else if isMarker CASE_ELSE_MARKER x then
        match rest with
        | [] => .error .Panicked
        | y :: rest2 => caseLoop rest2 b wt (some y)
      else
        match rest with
        | [] => .error .Panicked
        | y :: rest2 => caseLoop rest2 b (wt ++ [(x, y)]) e

/-- Model of `rewrite_expression` (optimizer/utils.rs lines 343-519).
Notable arms: `Between` is rebuilt as a `GtEq`/`LtEq` conjunction (wrapped
in `Not` when negated), both grouping-set variants are rebuilt as `Rollup`,
and `InList`/`Exists`/`InSubquery`/`ScalarSubquery` return `expr` itself
unchanged. -/
def ExprM.rewrite_expression (expr : ExprM) (expressions : List ExprM) :
    Except DataFusionError ExprM :=
  match expr with
  | .binaryExpr _ op _ => do
      let l ← idxE expressions 0
      let r ← idxE expressions 1
      .ok (.binaryExpr l op r)
  | .isNull _ => (idxE expressions 0).map .isNull
  | .isNotNull _ => (idxE expressions 0).map .isNotNull
  | .scalarFunction f _ => .ok (.scalarFunction f expressions)
  | .scalarUDF f _ => .ok (.scalarUDF f expressions)
  | .windowFunction f _ _ _ wf =>
      match expressions.findIdx? (isMarker WINDOW_PARTITION_MARKER) with
      | none => .error .Internal
      | some pi =>
          match expressions.findIdx? (isMarker WINDOW_SORT_MARKER) with
          | none => .error .Internal
          | some si =>
              if pi ≥ si then .error .Internal
              else .ok (.windowFunction f (expressions.take pi)
                  ((expressions.drop (pi + 1)).take (si - (pi + 1)))
                  (expressions.drop (si + 1)) wf)
  | .aggregateFunction f _ distinct => .ok (.aggregateFunction f expressions distinct)
  | .aggregateUDF f _ => .ok (.aggregateUDF f expressions)
  | .groupingSet (.rollup _) => .ok (.groupingSet (.rollup expressions))
  | .groupingSet (.cube _) => .ok (.groupingSet (.rollup expressions))
  | .groupingSet (.groupingSets _) => .error .Plan
  | .caseE _ _ _ =>
      (caseLoop expressions none [] none).map
        (fun r => .caseE r.1 r.2.1 r.2.2)
  | .cast _ ty => (idxE expressions 0).map (fun e => .cast e ty)
  | .tryCast _ ty => (idxE expressions 0).map (fun e => .tryCast e ty)
  | .aliasE _ nm => (idxE expressions 0).map (fun e => .aliasE e nm)
  | .notE _ => (idxE expressions 0).map .notE
  | .negative _ => (idxE expressions 0).map .negative
  | .column _ | .literal _ | .inList _ _ _ | .existsE _ _
  | .inSubquery _ _ _ | .scalarSubquery _ | .scalarVariable _ _ => .ok expr
  | .sortE _ asc nf => (idxE expressions 0).map (fun e => .sortE e asc nf)
  | .between _ negated _ _ => do
      let e0 ← idxE expressions 0
      let e1 ← idxE expressions 1
      let e2 ← idxE expressions 2
      let rebuilt := ExprM.binaryExpr
        (.binaryExpr e0 "GtEq" e1) "And" (.binaryExpr e0 "LtEq" e2)
      .ok (if negated then .notE rebuilt else rebuilt)
  | .wildcard | .qualifiedWildcard _ => .error .Internal
  | .getIndexedField _ key =>
      (idxE expressions 0).map (fun e => .getIndexedField e key)

/-- The rebuild-from-own-children round trip of C5. -/
def ExprM.roundTrip (e : ExprM) : Except DataFusionError ExprM :=
  match e.expr_sub_expressions with
  | .error err => .error err
  | .ok subs => e.rewrite_expression subs

/-- Side conditions under which the round trip is the identity: the variant
is not rebuilt differently (`Between`, `Cube`), not rejected
(`GroupingSets`, wildcards), and user expressions do not collide with the
sentinel markers. -/
def ExprM.roundTripOK : ExprM → Bool
  | .between _ _ _ _ => false
  | .groupingSet (.cube _) => false
  | .groupingSet (.groupingSets _) => false
  | .wildcard | .qualifiedWildcard _ => false
  | .windowFunction _ args pb _ _ =>
      args.all (fun x => !(isMarker WINDOW_PARTITION_MARKER x))
        && args.all (fun x => !(isMarker WINDOW_SORT_MARKER x))
        && pb.all (fun x => !(isMarker WINDOW_SORT_MARKER x))
  | .caseE _ wt _ =>
      wt.all (fun p => !(isMarker CASE_EXPR_MARKER p.1)
        && !(isMarker CASE_ELSE_MARKER p.1))
  | _ => true

/-! Logical plans and the plan rewrite utility (optimizer/utils.rs
`from_plan`, builder.rs `build_join_schema`).  The `LogicalPlan` enum,
`DFSchema` and the `expressions()`/`inputs()` accessors live in the
`datafusion_expr`/`datafusion_common` crates, which are not part of this
source tree, so they are modelled from the spec: a qualified field is its
optional qualifier with a field, DDL and Extension variants (opaque external
payloads never produced by this builder) are omitted, stringified explain
plans are plan-type/text string pairs, and per spec section 4.4 the leaf
nodes EmptyRelation and TableScan expose no expressions and no inputs while
Explain is not a leaf (its contained plan is its input, which is what the
`optimize_children` special-casing of Explain visits). -/

/-- Modelled from the spec: a qualified field of a `DFSchema`. -/
abbrev DFFieldM := Option String × FieldS

/-- Modelled from the spec: a `DFSchema` is its ordered qualified fields
(metadata is not modelled). -/
abbrev DFSchemaM := List DFFieldM

/-- Modelled from the spec: `DFSchema::new_with_metadata`'s field
validation — duplicate unqualified names are rejected, as is an unqualified
name colliding with a qualified field's name; duplicate fully qualified
names are accepted. -/
def dfschema_new (fields : List DFFieldM) : Except DataFusionError DFSchemaM :=
  let unqualified := (fields.filter (fun f => f.1.isNone)).map (fun f => f.2.1)
  if unqualified.Nodup
      ∧ ∀ f ∈ fields, f.1.isSome → f.2.1 ∉ unqualified then
    .ok fields
  else
    .error .SchemaDuplicateField

/-- Modelled from the spec: `DFSchema::try_from_qualified_schema` —
requalify every field of a bare schema with the alias. -/
def try_from_qualified_schema (al : String) (fields : List FieldS) :
    Except DataFusionError DFSchemaM :=
  dfschema_new (fields.map (fun f => (some al, f)))

/-- Modelled from the spec: converting a `DFSchema` into a bare arrow
schema drops the qualifiers. -/
def dropQualifiers (s : DFSchemaM) : List FieldS := s.map (fun f => f.2)

/-- Join types. -/
inductive JoinTypeM : Type where
  | inner | left | right | full | semi | anti

/-- Repartitioning schemes. -/
inductive PartitioningM : Type where
  | roundRobinBatch (n : Nat)
  | hash (exprs : List ExprM) (n : Nat)

/-- Modelled from the spec: the `LogicalPlan` variants produced by this
builder (DDL and Extension omitted).  `joinConstraint` is `true` for
`Using`. -/
inductive LogicalPlanM : Type where
  | projection (expr : List ExprM) (input : LogicalPlanM) (schema : DFSchemaM)
      (al : Option String)
  | filter (predicate : ExprM) (input : LogicalPlanM)
  | window (input : LogicalPlanM) (windowExpr : List ExprM) (schema : DFSchemaM)
  | aggregate (input : LogicalPlanM) (groupExpr : List ExprM)
      (aggrExpr : List ExprM) (schema : DFSchemaM)
  | sort (expr : List ExprM) (input : LogicalPlanM)
  | join (left : LogicalPlanM) (right : LogicalPlanM)
      (onKeys : List (ColumnM × ColumnM)) (joinType : JoinTypeM)
      (joinConstraint : Bool) (schema : DFSchemaM) (nullEqualsNull : Bool)
  | crossJoin (left : LogicalPlanM) (right : LogicalPlanM) (schema : DFSchemaM)
  | repartition (input : LogicalPlanM) (scheme : PartitioningM)
  | union (inputs : List LogicalPlanM) (schema : DFSchemaM) (al : Option String)
  | tableScan (tableName : String) (projectedSchema : DFSchemaM)
      (projection : Option (List Nat)) (filters : List ExprM) (limit : Option Nat)
  | emptyRelation (produceOneRow : Bool) (schema : DFSchemaM)
  | limit (n : Nat) (input : LogicalPlanM)
  | subqueryAlias (input : LogicalPlanM) (al : String) (schema : DFSchemaM)
  | subquery (sub : LogicalPlanM)
  | valuesP (schema : DFSchemaM) (values : List (List ExprM))
  | explain (verbose : Bool) (plan : LogicalPlanM)
      (stringifiedPlans : List (String × String)) (schema : DFSchemaM)
  | analyze (verbose : Bool) (input : LogicalPlanM) (schema : DFSchemaM)

/-- Modelled from the spec: `plan.schema()`. -/
def LogicalPlanM.schema : LogicalPlanM → DFSchemaM
  | .projection _ _ s _ => s
  | .filter _ input => input.schema
  | .window _ _ s => s
  | .aggregate _ _ _ s => s
  | .sort _ input => input.schema
  | .join _ _ _ _ _ s _ => s
  | .crossJoin _ _ s => s
  | .repartition input _ => input.schema
  | .union _ s _ => s
  | .tableScan _ s _ _ _ => s
  | .emptyRelation _ s => s
  | .limit _ input => input.schema
  | .subqueryAlias _ _ s => s
  | .subquery sub => sub.schema
  | .valuesP s _ => s
  | .explain _ _ _ s => s
  | .analyze _ _ s => s

/-- Modelled from the spec: `plan.expressions()` (section 4.4 ordering:
groups before aggregates; leaves expose none). -/
def LogicalPlanM.expressionsM : LogicalPlanM → List ExprM
  | .projection expr _ _ _ => expr
  | .valuesP _ values => values.flatten
  | .filter predicate _ => [predicate]
  | .repartition _ (.hash exprs _) => exprs
  | .window _ windowExpr _ => windowExpr
  | .aggregate _ groupExpr aggrExpr _ => groupExpr ++ aggrExpr
  | .join _ _ onKeys _ _ _ _ =>
      onKeys.flatMap (fun p => [.column p.1, .column p.2])
  | .sort expr _ => expr
  | _ => []

/-- Modelled from the spec: `plan.inputs()`; Explain's input is its
contained plan. -/
def LogicalPlanM.inputsM : LogicalPlanM → List LogicalPlanM
  | .projection _ input _ _ => [input]
  | .filter _ input => [input]
  | .repartition input _ => [input]
  | .window input _ _ => [input]
  | .aggregate input _ _ _ => [input]
  | .sort _ input => [input]
  | .join l r _ _ _ _ _ => [l, r]
  | .crossJoin l r _ => [l, r]
  | .limit _ input => [input]
  | .subquery sub => [sub]
  | .subqueryAlias input _ _ => [input]
  | .union inputs _ _ => inputs
  | .explain _ plan _ _ => [plan]
  | .analyze _ input _ => [input]
  | .tableScan _ _ _ _ _ | .emptyRelation _ _ | .valuesP _ _ => []

/-- Model of `build_join_schema` (builder.rs lines 771-792): left fields
then right fields for Inner/Left/Full/Right, left only for Semi/Anti. -/
def build_join_schema (left right : DFSchemaM) (joinType : JoinTypeM) :
    Except DataFusionError DFSchemaM :=
  match joinType with
  | .inner | .left | .full | .right => dfschema_new (left ++ right)
  | .semi | .anti => dfschema_new left

/-- Rust slice indexing `inputs[i]`: out of bounds panics. -/
def idxP (l : List LogicalPlanM) (i : Nat) : Except DataFusionError LogicalPlanM :=
  match l.get? i with
  | some p => .ok p
  | none => .error .Panicked

/-- `slice::chunks_exact` (used by the `Values` arm of `from_plan`): full
chunks of width `w`, remainder dropped; `w = 0` panics (modelled by the
caller). -/
def chunksExact {α : Type} (w : Nat) (l : List α) : List (List α) :=
  match w with
  | 0 => []
  | w' + 1 =>
      if h : w' + 1 ≤ l.length then
        l.take (w' + 1) :: chunksExact (w' + 1) (l.drop (w' + 1))
      else []
termination_by l.length
decreasing_by
  simp_wf
  omega

/-- Model of `from_plan` (optimizer/utils.rs lines 82-248): rebuild the
node's variant from the given expressions and inputs, preserving
non-expression metadata.  `assert!` failures and out-of-bounds slice
indexing are `Panicked`.  Join recomputes its schema with
`build_join_schema`, CrossJoin through the builder's `cross_join`
(`DFSchema::join`, i.e. concatenation validated by `new_with_metadata`),
SubqueryAlias by requalifying the input's schema. -/
def from_plan (plan : LogicalPlanM) (expr : List ExprM)
    (inputs : List LogicalPlanM) : Except DataFusionError LogicalPlanM :=
  match plan with
  | .projection _ _ schema al => do
      let i0 ← idxP inputs 0
      .ok (.projection expr i0 schema al)
  | .valuesP schema _ =>
      if schema.length = 0 then .error .Panicked
      else .ok (.valuesP schema (chunksExact schema.length expr))
  | .filter _ _ => do
      let e0 ← match expr.get? 0 with
               | some e => Except.ok e
               | none => Except.error DataFusionError.Panicked
      let i0 ← idxP inputs 0
      .ok (.filter e0 i0)
  | .repartition _ scheme =>
      match scheme with
      | .roundRobinBatch n =>
          (idxP inputs 0).map (fun i0 => .repartition i0 (.roundRobinBatch n))
      | .hash _ n =>
          (idxP inputs 0).map (fun i0 => .repartition i0 (.hash expr n))
  | .window _ windowExpr schema => do
      let i0 ← idxP inputs 0
      .ok (.window i0 (expr.take windowExpr.length) schema)
  | .aggregate _ groupExpr _ schema => do
      let i0 ← idxP inputs 0
      .ok (.aggregate i0 (expr.take groupExpr.length)
        (expr.drop groupExpr.length) schema)
  | .sort _ _ => (idxP inputs 0).map (fun i0 => .sort expr i0)
  | .join _ _ onKeys joinType joinConstraint _ nullEqualsNull => do
      let i0 ← idxP inputs 0
      let i1 ← idxP inputs 1
      let schema ← build_join_schema i0.schema i1.schema joinType
      .ok (.join i0 i1 onKeys joinType joinConstraint schema nullEqualsNull)
  | .crossJoin _ _ _ => do
      let i0 ← idxP inputs 0
      let i1 ← idxP inputs 1
      let schema ← dfschema_new (i0.schema ++ i1.schema)
      .ok (.crossJoin i0 i1 schema)
  | .subquery _ => (idxP inputs 0).map .subquery
  | .subqueryAlias _ al _ => do
      let i0 ← idxP inputs 0
      let schema ← try_from_qualified_schema al (dropQualifiers i0.schema)
      .ok (.subqueryAlias i0 al schema)
  | .limit n _ => (idxP inputs 0).map (.limit n)
  | .union _ schema al => .ok (.union inputs schema al)
  | .analyze verbose _ schema =>
      if expr.isEmpty then
        if inputs.length = 1 then
          (idxP inputs 0).map (fun i0 => .analyze verbose i0 schema)
        else .error .Panicked
      else .error .Panicked
  | .explain _ _ _ _ =>
      if expr.isEmpty then
        if inputs.isEmpty then .ok plan else .error .Panicked
      else .error .Panicked
  | .emptyRelation _ _ | .tableScan _ _ _ _ _ =>
      if expr.isEmpty ∧ inputs.isEmpty then .ok plan else .error .Panicked

/-- Side conditions under which rebuilding a node from its own parts is the
identity: a `Values` node needs a non-empty uniform row shape (so
`chunks_exact` re-chunks the flattened expressions into the original rows),
the three schema-recomputing variants need the stored schema to equal the
recomputation, and `Explain` is excluded (its rebuild panics). -/
def TopOK : LogicalPlanM → Prop
  | .valuesP schema values =>
      0 < schema.length ∧ ∀ row ∈ values, row.length = schema.length
  | .join l r _ joinType _ schema _ =>
      build_join_schema l.schema r.schema joinType = .ok schema
  | .crossJoin l r schema => dfschema_new (l.schema ++ r.schema) = .ok schema
  | .subqueryAlias input al schema =>
      try_from_qualified_schema al (dropQualifiers input.schema) = .ok schema
  | .explain _ _ _ _ => False
  | _ => True


/-! `LogicalPlanBuilder::values` (builder.rs lines 123-189).  The default
column names are `column1..columnN`; showing the resulting schema is valid
needs injectivity of the decimal rendering of `Nat`, proved here through an
explicit digit parser. -/

/-- The big-endian digit list of `Nat.repr`, without fuel: the recursion of
`Nat.toDigitsCore` at base 10. -/
def digitsString (n : Nat) : List Char :=
  if h : n / 10 = 0 then [Nat.digitChar (n % 10)]
  else digitsString (n / 10) ++ [Nat.digitChar (n % 10)]
termination_by n
decreasing_by
  simp_wf
  omega


/-- Modelled from the spec: `Expr::get_type` against the empty schema, as
`values` uses it — a literal's type is its scalar's datatype; typing any
other expression shape against the empty schema is not modelled and
conservatively errors. -/
def ExprM.get_type_empty : ExprM → Except DataFusionError DataTypeM
  | .literal v => .ok v.get_datatype
  | _ => .error .Internal

/-- One row of the column-type inference loop of `values` (builder.rs lines
149-167): a `Literal(Null)` cell keeps the column's current type and is
recorded as a hole, any other cell is typed and must agree with the
column's previously inferred type. -/
def valuesTypeRow : List ExprM → List (Option DataTypeM) →
    Except DataFusionError (List (Option DataTypeM))
  | [], _ => .ok []
  | cell :: rest, ft =>
      match ft with
      | [] => .error .Panicked
      | t0 :: ftRest =>
          match cell with
          | .literal .Null =>
              (valuesTypeRow rest ftRest).map (fun ts => t0 :: ts)
          | c => do
              let dt ← c.get_type_empty
              match t0 with
              | some prev =>
                  if prev = dt then
                    (valuesTypeRow rest ftRest).map (fun ts => some dt :: ts)
                  else .error .Plan
              | none => (valuesTypeRow rest ftRest).map (fun ts => some dt :: ts)

/-- The row loop of `values`: each row must have the expected width. -/
def valuesFold : List (List ExprM) → Nat → List (Option DataTypeM) →
    Except DataFusionError (List (Option DataTypeM))
  | [], _, ft => .ok ft
  | row :: rest, w, ft =>
      if row.length = w then do
        let ft2 ← valuesTypeRow row ft
        valuesFold rest w ft2
      else .error .Plan

/-- The output fields of `values` (builder.rs lines 169-182): unqualified,
named `column{j+1}`, a column with no inferred type defaults to `Utf8`,
and every field is nullable. -/
def valuesFields (ft : List (Option DataTypeM)) : List DFFieldM :=
  ft.enum.map (fun p => (none, "column" ++ toString (p.1 + 1), p.2.getD .utf8, true))

/-- The null-hole rewrite of `values` (builder.rs lines 183-185): each
`Literal(Null)` cell becomes the typed null of its column's field type. -/
def rewriteRow : List ExprM → List DFFieldM → Except DataFusionError (List ExprM)
  | [], _ => .ok []
  | cell :: rest, flds =>
      match flds with
      | [] => .error .Panicked
      | f :: frest =>
          match cell with
          | .literal .Null => do
              let sv ← ScalarValue.try_from_datatype f.2.2.1
              let others ← rewriteRow rest frest
              .ok (.literal sv :: others)
          | c => (rewriteRow rest frest).map (fun os => c :: os)

/-- Model of `LogicalPlanBuilder::values` (builder.rs lines 123-189). -/
def builder_values (vs : List (List ExprM)) : Except DataFusionError LogicalPlanM :=
  match vs with
  | [] => .error .Plan
  | row0 :: _ =>
      if row0.length = 0 then .error .Plan
      else do
        let ft ← valuesFold vs row0.length (List.replicate row0.length none)
        let fields := valuesFields ft
        let newRows ← vs.mapM (fun r => rewriteRow r fields)
        let schema ← dfschema_new fields
        .ok (.valuesP schema newRows)

/-- The inferred column type of a template cell. -/
def columnTypeOf : ExprM → Option DataTypeM
  | .literal .Null => none
  | .literal sv => some sv.get_datatype
  | _ => none

/-- The null-hole retyping on an all-null column (its field type defaults
to `Utf8`). -/
def retypeNullCell : ExprM → ExprM
  | .literal .Null => .literal (.Utf8 none)
  | c => c


/-! `LogicalPlanBuilder::sort` with missing-column back-propagation
(builder.rs lines 328-435).  The column-resolution helpers
(`DFSchema::field_from_column`, `normalize_col`, `expr_to_columns`,
`exprlist_to_fields`, `rewrite_sort_cols_by_aggs`) live outside this source
tree and are modelled from the spec; their expression recursion is given
only for the shapes the verified builder paths produce (columns, sort keys,
aliases, literals), every other shape conservatively erroring rather than
guessing. -/

/-- Modelled from the spec: `DFSchema::field_from_column` — a qualified
reference matches on (qualifier, name); a bare reference must match exactly
one field by name, several matches being ambiguous. -/
def field_from_column (s : DFSchemaM) (c : ColumnM) : Except DataFusionError DFFieldM :=
  match c.1 with
  | some _ =>
      match s.find? (fun f => f.1 == c.1 && f.2.1 == c.2) with
      | some f => .ok f
      | none => .error .SchemaFieldNotFound
  | none =>
      match s.filter (fun f => f.2.1 == c.2) with
      | [f] => .ok f
      | [] => .error .SchemaFieldNotFound
      | _ => .error .SchemaAmbiguousReference

def exceptOk {α : Type} : Except DataFusionError α → Bool
  | .ok _ => true
  | .error _ => false

/-- Modelled from the spec: `normalize_col` — bare columns resolve against
the plan's output schema to their fully qualified form; already-qualified
columns pass through unchanged. -/
def normalize_col (plan : LogicalPlanM) : ExprM → Except DataFusionError ExprM
  | .column c =>
      match c.1 with
      | some _ => .ok (.column c)
      | none => (field_from_column plan.schema c).map (fun f => .column (f.1, f.2.1))
  | .sortE e a nf => (normalize_col plan e).map (fun e2 => .sortE e2 a nf)
  | .aliasE e nm => (normalize_col plan e).map (fun e2 => .aliasE e2 nm)
  | .literal v => .ok (.literal v)
  | _ => .error .NotImplemented

def normalize_cols (exprs : List ExprM) (plan : LogicalPlanM) :
    Except DataFusionError (List ExprM) :=
  exprs.mapM (normalize_col plan)

/-- Modelled from the spec: the columns referenced by an expression. -/
def ExprM.expr_to_columns : ExprM → Except DataFusionError (List ColumnM)
  | .column c => .ok [c]
  | .sortE e _ _ => e.expr_to_columns
  | .aliasE e _ => e.expr_to_columns
  | .literal _ => .ok []
  | _ => .error .NotImplemented

/-- Modelled from the spec: the output field of one projection expression. -/
def exprToField (s : DFSchemaM) : ExprM → Except DataFusionError DFFieldM
  | .column c => field_from_column s c
  | _ => .error .NotImplemented

/-- Modelled from the spec: `exprlist_to_fields`. -/
def exprlist_to_fields (exprs : List ExprM) (plan : LogicalPlanM) :
    Except DataFusionError (List DFFieldM) :=
  exprs.mapM (exprToField plan.schema)

def isAggregateB : LogicalPlanM → Bool
  | .aggregate _ _ _ _ => true
  | _ => false

/-- Modelled from the spec: `rewrite_sort_cols_by_aggs` is the identity
except over a projected aggregate, where sort columns naming aggregate
outputs are rewritten to the underlying expressions (a path out of scope
here, conservatively erroring). -/
def rewrite_sort_cols_by_aggs (exprs : List ExprM) (plan : LogicalPlanM) :
    Except DataFusionError (List ExprM) :=
  match plan with
  | .projection _ input _ _ =>
      if isAggregateB input then .error .NotImplemented else .ok exprs
  | _ => .ok exprs

/-- The missing-column collection loop of `sort` (builder.rs lines
388-404): the columns of each sort expression that the current schema
cannot resolve.  (The source drains a per-expression `HashSet`; the
verified instances reference one column per sort expression, where the
iteration order is immaterial.) -/
def collectMissing (schema : DFSchemaM) :
    List ExprM → Except DataFusionError (List ColumnM)
  | [] => .ok []
  | e :: rest => do
      let cols ← e.expr_to_columns
      let more ← collectMissing schema rest
      .ok ((cols.filter (fun c => !(exceptOk (field_from_column schema c)))) ++ more)

mutual

/-- Node count of a plan, the termination measure of
`add_missing_columns`. -/
def pweight : LogicalPlanM → Nat
  | .projection _ i _ _ => pweight i + 1
  | .filter _ i => pweight i + 1
  | .window i _ _ => pweight i + 1
  | .aggregate i _ _ _ => pweight i + 1
  | .sort _ i => pweight i + 1
  | .join l r _ _ _ _ _ => pweight l + pweight r + 1
  | .crossJoin l r _ => pweight l + pweight r + 1
  | .repartition i _ => pweight i + 1
  | .union inputs _ _ => plweight inputs + 1
  | .tableScan _ _ _ _ _ => 1
  | .emptyRelation _ _ => 1
  | .limit _ i => pweight i + 1
  | .subqueryAlias i _ _ => pweight i + 1
  | .subquery s => pweight s + 1
  | .valuesP _ _ => 1
  | .explain _ pl _ _ => pweight pl + 1
  | .analyze _ i _ => pweight i + 1

def plweight : List LogicalPlanM → Nat
  | [] => 0
  | x :: r => pweight x + plweight r

end

mutual

/-- Model of `add_missing_columns` (builder.rs lines 328-377): at the first
projection whose input resolves every missing column, append the normalized
missing columns to its expression list and recompute its schema; otherwise
rebuild the node over recursively processed inputs with `from_plan`. -/
def add_missing_columns (missing : List ColumnM) (p : LogicalPlanM) :
    Except DataFusionError LogicalPlanM :=
  match p with
  | .projection expr input schema al =>
      if missing.all (fun c => exceptOk (field_from_column input.schema c)) then do
        let missingExprs ← missing.mapM (fun c => normalize_col input (.column c))
        let newExpr := expr ++ missingExprs
        let fields ← exprlist_to_fields newExpr input
        let newSchema ← dfschema_new fields
        .ok (.projection newExpr input newSchema al)
      else do
        let newInput ← add_missing_columns missing input
        from_plan (.projection expr input schema al)
          (LogicalPlanM.projection expr input schema al).expressionsM [newInput]
  | q => do
      let newInputs ← addMissingList missing q.inputsM
      from_plan q q.expressionsM newInputs
termination_by 2 * pweight p
decreasing_by
  all_goals simp_wf
  all_goals first
    | (simp only [pweight]; omega)
    | (rename_i q
       have hq : plweight (LogicalPlanM.inputsM q) < pweight q := by
         cases q <;> simp [pweight, plweight, LogicalPlanM.inputsM] <;> omega
       omega)

/-- The per-input recursion of `add_missing_columns`' rebuild arm. -/
def addMissingList (missing : List ColumnM) :
    List LogicalPlanM → Except DataFusionError (List LogicalPlanM)
  | [] => .ok []
  | x :: rest => do
      let x2 ← add_missing_columns missing x
      let rest2 ← addMissingList missing rest
      .ok (x2 :: rest2)
termination_by l => 2 * plweight l + 1
decreasing_by
  all_goals simp_wf
  all_goals
    (have hx : 1 ≤ pweight x := by cases x <;> simp [pweight] <;> omega
     simp only [plweight]
     omega)

end

/-- Model of `LogicalPlanBuilder::sort` (builder.rs lines 380-435): with no
missing sort columns emit `Sort` directly; otherwise push the missing
columns into the plan with `add_missing_columns`, sort, and wrap in a
projection of the original schema's columns whose schema restores the plan's
original output schema. -/
def builder_sort (plan : LogicalPlanM) (sortExprs : List ExprM) :
    Except DataFusionError LogicalPlanM := do
  let exprs ← rewrite_sort_cols_by_aggs sortExprs plan
  let schema := plan.schema
  let missing ← collectMissing schema exprs
  if missing.isEmpty then do
    let nexprs ← normalize_cols exprs plan
    .ok (.sort nexprs plan)
  else do
    let plan2 ← add_missing_columns missing plan
    let nexprs ← normalize_cols exprs plan2
    let sortPlan := LogicalPlanM.sort nexprs plan2
    let newExpr := schema.map (fun f => ExprM.column (f.1, f.2.1))
    let fields ← exprlist_to_fields newExpr plan
    let newSchema ← dfschema_new fields
    .ok (.projection newExpr sortPlan newSchema none)

/-! Helper lemmas for the hash/eq agreement proof. -/

theorem Fp.canon_congr : ∀ a b : Fp, Fp.ordEq a b = true → a.canon = b.canon := by
  intro a b h
  cases a <;> cases b <;> simp_all [Fp.ordEq, Fp.ieeeEq, Fp.canon]

theorem hashOptF32_congr :
    ∀ v1 v2, Fp.optOrdEq v1 v2 = true → hashOptF32 v1 = hashOptF32 v2 := by
  intro v1 v2 h
  cases v1 <;> cases v2 <;> simp_all [Fp.optOrdEq, hashOptF32]
  exact Fp.canon_congr _ _ h

theorem hashOptF64_congr :
    ∀ v1 v2, Fp.optOrdEq v1 v2 = true → hashOptF64 v1 = hashOptF64 v2 := by
  intro v1 v2 h
  cases v1 <;> cases v2 <;> simp_all [Fp.optOrdEq, hashOptF64]
  exact Fp.canon_congr _ _ h

set_option maxHeartbeats 1000000 in
/-- C2 (amended): for all ScalarValues `a` and `b`, `a == b` implies
`hash(a) == hash(b)`: equal scalars feed identical event sequences to the
hasher.  Both sides use the same canonical encodings (the `OrderedFloat`
total-order encoding for floats, payload-only hashing for timestamps), so the
implication holds with no restriction on the declared types. -/
theorem hash_agrees_with_eq :
    ∀ a b, ScalarValue.eq a b = true → a.hashTokens = b.hashTokens := by
  have H := ScalarValue.eq.induct
    (fun a b => ScalarValue.eq a b = true → a.hashTokens = b.hashTokens)
    (fun o1 o2 => ScalarValue.eqOptList o1 o2 = true →
        ScalarValue.hashTokensOptList o1 = ScalarValue.hashTokensOptList o2)
    (fun l1 l2 => ScalarValue.eqList l1 l2 = true →
        l1.length = l2.length ∧ ScalarValue.hashTokensList l1 = ScalarValue.hashTokensList l2)
  apply H <;> clear H <;>
    first
    | (intros; rfl)
    | (intros; exact ⟨rfl, rfl⟩)
    | -- fallthrough arms of `eq`: the right side is a different variant and
      -- `eq` reduces to `false`
      (intros
       exfalso
       rename_i hne h
       revert h
       rename_i x
       cases x <;> intro h <;> first
         | exact hne rfl
         | exact hne _ rfl
         | exact hne _ _ rfl
         | exact hne _ _ _ rfl
         | exact Bool.noConfusion h)
    | -- diagonal arms with a single `==`-compared payload
      (intros
       rename_i h
       cases eq_of_beq h
       rfl)
    | (intros; rename_i h; exact hashOptF32_congr _ _ h)
    | (intros; rename_i h; exact hashOptF64_congr _ _ h)
    | -- `Decimal128`: value, precision and scale all compare
      (intros
       rename_i h
       obtain ⟨h12, h3⟩ := (Bool.and_eq_true _ _).mp h
       obtain ⟨h1, h2⟩ := (Bool.and_eq_true _ _).mp h12
       cases eq_of_beq h1
       cases eq_of_beq h2
       cases eq_of_beq h3
       rfl)
    | -- `ListSV` / `Struct` diagonal arms
      (intros
       rename_i ih h
       obtain ⟨h1, h2⟩ := (Bool.and_eq_true _ _).mp h
       cases eq_of_beq h2
       simp only [ScalarValue.hashTokens]
       rw [ih h1])
    | -- `eqOptList (some l1) (some l2)`
      (intros
       rename_i ih h
       obtain ⟨hl, ht⟩ := ih h
       simp only [ScalarValue.hashTokensOptList]
       rw [hl, ht])
    | -- fallthrough arms of `eqOptList` / `eqList`
      (intro t x c1 c2 h
       exfalso
       cases t <;> cases x <;>
         first
         | exact c1 rfl rfl
         | exact c2 _ _ rfl rfl
         | exact c2 _ _ _ _ rfl rfl
         | exact Bool.noConfusion h)
    | -- `eqList` cons arm
      (intro a as1 b bs1 ih1 ih2 h
       obtain ⟨h1, h2⟩ := (Bool.and_eq_true _ _).mp h
       obtain ⟨hl, ht⟩ := ih2 h2
       refine ⟨by simp [hl], ?_⟩
       simp only [ScalarValue.hashTokensList]
       rw [ih1 h1, ht])

/-- C2 witness: two timestamp scalars that differ only in their timezone
metadata are equal, and the theorem yields equal hash streams for them. -/
theorem hash_agrees_with_eq_witness :
    ScalarValue.eq (.TimestampSecond (some 1) none) (.TimestampSecond (some 1) (some "UTC")) = true
    ∧ ScalarValue.hashTokens (.TimestampSecond (some 1) none)
        = ScalarValue.hashTokens (.TimestampSecond (some 1) (some "UTC")) :=
  ⟨rfl, hash_agrees_with_eq _ _ rfl⟩

/-- C2 counterexample: the equivalence direction fails.  These two list
scalars have the same declared logical type `List(Utf8)` and identical hash
streams (a `Utf8` and a `LargeUtf8` element hash their `Option<String>`
payload the same way), yet they are not equal, because element equality is
tag-first. -/
theorem hash_eq_not_equivalence :
    ScalarValue.get_datatype (.ListSV (some [.Utf8 (some "a")]) .utf8)
      = ScalarValue.get_datatype (.ListSV (some [.LargeUtf8 (some "a")]) .utf8)
    ∧ ScalarValue.hashTokens (.ListSV (some [.Utf8 (some "a")]) .utf8)
      = ScalarValue.hashTokens (.ListSV (some [.LargeUtf8 (some "a")]) .utf8)
    ∧ ScalarValue.eq (.ListSV (some [.Utf8 (some "a")]) .utf8)
        (.ListSV (some [.LargeUtf8 (some "a")]) .utf8) = false :=
  ⟨rfl, rfl, rfl⟩

/-- C8: `is_null` evaluated on the variants the source `matches!` omits.  The
claim (and the spec sentence it comes from) says these are null; the code
returns `false` for all five. -/
theorem is_null_misses_binary_and_intervals :
    ScalarValue.is_null (.Binary none) = false
    ∧ ScalarValue.is_null (.LargeBinary none) = false
    ∧ ScalarValue.is_null (.IntervalYearMonth none) = false
    ∧ ScalarValue.is_null (.IntervalDayTime none) = false
    ∧ ScalarValue.is_null (.IntervalMonthDayNano none) = false :=
  ⟨rfl, rfl, rfl, rfl, rfl⟩

/-- C7 counterexample: the claim says a float variant with an absent payload
is preserved as-is; `arithmetic_negate(Float64(None))` instead hits the
catch-all `panic!` arm (modelled as `none`). -/
theorem arithmetic_negate_float64_none_panics :
    ScalarValue.arithmetic_negate (.Float64 none) = none := rfl

/-- C7 (amended): full characterization of `arithmetic_negate`.  Present
payloads of the signed integer, float and decimal variants are negated in
place (decimals keep precision and scale); absent payloads are preserved only
for `Boolean`, `Int8`..`Int64` and `Float32`; every other input — including
`Float64(None)`, `Decimal128(None,_,_)`, `Boolean(Some _)`, the unsigned
integers and all non-numeric variants — panics (modelled as `none`) instead
of returning a `NotNegatable` error. -/
theorem arithmetic_negate_characterized :
    (∀ v : Int, ScalarValue.arithmetic_negate (.Int8 (some v)) = some (.Int8 (some (-v))))
    ∧ (∀ v : Int, ScalarValue.arithmetic_negate (.Int16 (some v)) = some (.Int16 (some (-v))))
    ∧ (∀ v : Int, ScalarValue.arithmetic_negate (.Int32 (some v)) = some (.Int32 (some (-v))))
    ∧ (∀ v : Int, ScalarValue.arithmetic_negate (.Int64 (some v)) = some (.Int64 (some (-v))))
    ∧ (∀ v : Fp, ScalarValue.arithmetic_negate (.Float32 (some v)) = some (.Float32 (some v.neg)))
    ∧ (∀ v : Fp, ScalarValue.arithmetic_negate (.Float64 (some v)) = some (.Float64 (some v.neg)))
    ∧ (∀ (v : Int) (p s : Nat),
        ScalarValue.arithmetic_negate (.Decimal128 (some v) p s)
          = some (.Decimal128 (some (-v)) p s))
    ∧ ScalarValue.arithmetic_negate (.Boolean none) = some (.Boolean none)
    ∧ ScalarValue.arithmetic_negate (.Int8 none) = some (.Int8 none)
    ∧ ScalarValue.arithmetic_negate (.Int16 none) = some (.Int16 none)
    ∧ ScalarValue.arithmetic_negate (.Int32 none) = some (.Int32 none)
    ∧ ScalarValue.arithmetic_negate (.Int64 none) = some (.Int64 none)
    ∧ ScalarValue.arithmetic_negate (.Float32 none) = some (.Float32 none)
    ∧ ScalarValue.arithmetic_negate (.Float64 none) = none
    ∧ (∀ p s : Nat, ScalarValue.arithmetic_negate (.Decimal128 none p s) = none)
    ∧ (∀ b : Bool, ScalarValue.arithmetic_negate (.Boolean (some b)) = none)
    ∧ (∀ v, ScalarValue.arithmetic_negate (.UInt8 v) = none)
    ∧ (∀ v, ScalarValue.arithmetic_negate (.UInt16 v) = none)
    ∧ (∀ v, ScalarValue.arithmetic_negate (.UInt32 v) = none)
    ∧ (∀ v, ScalarValue.arithmetic_negate (.UInt64 v) = none)
    ∧ (∀ v, ScalarValue.arithmetic_negate (.Utf8 v) = none)
    ∧ (∀ v, ScalarValue.arithmetic_negate (.LargeUtf8 v) = none)
    ∧ (∀ v, ScalarValue.arithmetic_negate (.Binary v) = none)
    ∧ (∀ v, ScalarValue.arithmetic_negate (.LargeBinary v) = none)
    ∧ (∀ v t, ScalarValue.arithmetic_negate (.ListSV v t) = none)
    ∧ (∀ v, ScalarValue.arithmetic_negate (.Date32 v) = none)
    ∧ (∀ v, ScalarValue.arithmetic_negate (.Date64 v) = none)
    ∧ (∀ v z, ScalarValue.arithmetic_negate (.TimestampSecond v z) = none)
    ∧ (∀ v z, ScalarValue.arithmetic_negate (.TimestampMillisecond v z) = none)
    ∧ (∀ v z, ScalarValue.arithmetic_negate (.TimestampMicrosecond v z) = none)
    ∧ (∀ v z, ScalarValue.arithmetic_negate (.TimestampNanosecond v z) = none)
    ∧ (∀ v, ScalarValue.arithmetic_negate (.IntervalYearMonth v) = none)
    ∧ (∀ v, ScalarValue.arithmetic_negate (.IntervalDayTime v) = none)
    ∧ (∀ v, ScalarValue.arithmetic_negate (.IntervalMonthDayNano v) = none)
    ∧ (∀ v f, ScalarValue.arithmetic_negate (.Struct v f) = none)
    ∧ ScalarValue.arithmetic_negate .Null = none := by
  repeat' constructor
  all_goals intros
  all_goals first
    | rfl
    | (rename_i v; cases v <;> rfl)
    | (rename_i v _; cases v <;> rfl)

/-- C9 counterexample: precision 0 is accepted by the constructor, so the
claim's data-model part "every constructed decimal has precision in [1,38]"
fails at `try_new_decimal128(0, 0, 0)`. -/
theorem try_new_decimal128_accepts_precision_zero :
    ScalarValue.try_new_decimal128 0 0 0 = .ok (.Decimal128 (some 0) 0 0)
    ∧ ¬(1 ≤ (0 : Nat)) :=
  ⟨rfl, by decide⟩

/-- C9 (amended): `try_new_decimal128 v p s` succeeds with
`Decimal128(Some v, p, s)` exactly when `p ≤ 38` and `s ≤ p`, and fails with
an `Internal` error otherwise; hence constructed decimals have precision in
[0,38] (0 included) and scale in [0,precision]. -/
theorem try_new_decimal128_ok_iff :
    ∀ (v : Int) (p s : Nat),
      (ScalarValue.try_new_decimal128 v p s = .ok (.Decimal128 (some v) p s)
        ↔ p ≤ DECIMAL_MAX_PRECISION ∧ s ≤ p)
      ∧ (ScalarValue.try_new_decimal128 v p s = .error .Internal
        ↔ ¬(p ≤ DECIMAL_MAX_PRECISION ∧ s ≤ p)) := by
  intro v p s
  by_cases hc : p ≤ DECIMAL_MAX_PRECISION ∧ s ≤ p <;>
    simp [ScalarValue.try_new_decimal128, hc]

theorem eqArrayPrim_eq_beq {α : Type} [BEq α] (vs : List (Option α)) (index : Nat)
    (val : Option α) : eqArrayPrim vs index val = ((vs.getD index none) == val) := by
  cases hc : vs.getD index none <;> cases val <;>
    simp only [eqArrayPrim, hc, Option.isSome] <;> rfl

theorem ieeeEq_eq_ordEq_of_not_nan (w v : Fp) (hv : ∀ b, v ≠ .nan b) :
    Fp.ieeeEq w v = Fp.ordEq w v := by
  cases w <;> cases v <;> simp_all [Fp.ieeeEq, Fp.ordEq]

theorem eqArrayPrimFp_eq_optOrdEq (vs : List (Option Fp)) (index : Nat)
    (val : Option Fp) (hval : ∀ b, val ≠ some (.nan b)) :
    eqArrayPrimFp vs index val = Fp.optOrdEq (vs.getD index none) val := by
  cases hc : vs.getD index none <;> cases val <;>
    simp only [eqArrayPrimFp, hc, Fp.optOrdEq]
  all_goals try rfl
  rename_i w v
  exact ieeeEq_eq_ordEq_of_not_nan w v (fun b hb => hval b (by rw [hb]))

theorem shape_boolA : ∀ a : ArrayM, a.dataType = .boolean → ∃ vs, a = .boolA vs := by
  intro a h
  cases a <;> try simp_all [ArrayM.dataType]
  case intA t vs => cases t <;> simp_all [ArrayM.dataType, IntTy.toDataType]
  case fpA b vs => cases b <;> simp_all [ArrayM.dataType]
  case strA b vs => cases b <;> simp_all [ArrayM.dataType]
  case binA b vs => cases b <;> simp_all [ArrayM.dataType]

theorem shape_intA : ∀ (a : ArrayM) (t : IntTy), a.dataType = t.toDataType →
    ∃ vs, a = .intA t vs := by
  intro a t h
  cases a <;> cases t <;> try simp_all [ArrayM.dataType, IntTy.toDataType]
  all_goals rename_i t' vs
  all_goals cases t' <;> simp_all [ArrayM.dataType, IntTy.toDataType]
  all_goals try (cases vs)   -- leftover misnamed branches, if any
  all_goals simp_all

theorem shape_fpA : ∀ (a : ArrayM) (b : Bool),
    a.dataType = (if b then .float64 else .float32) → ∃ vs, a = .fpA b vs := by
  intro a b h
  cases a <;> cases b <;> try simp_all [ArrayM.dataType]
  case intA.false t vs => cases t <;> simp_all [ArrayM.dataType, IntTy.toDataType]
  case intA.true t vs => cases t <;> simp_all [ArrayM.dataType, IntTy.toDataType]
  case fpA.false b vs => cases b <;> simp_all [ArrayM.dataType]
  case fpA.true b vs => cases b <;> simp_all [ArrayM.dataType]
  case strA.false b vs => cases b <;> simp_all [ArrayM.dataType]
  case strA.true b vs => cases b <;> simp_all [ArrayM.dataType]
  case binA.false b vs => cases b <;> simp_all [ArrayM.dataType]
  case binA.true b vs => cases b <;> simp_all [ArrayM.dataType]

theorem shape_strA : ∀ (a : ArrayM) (b : Bool),
    a.dataType = (if b then .largeUtf8 else .utf8) → ∃ vs, a = .strA b vs := by
  intro a b h
  cases a <;> cases b <;> try simp_all [ArrayM.dataType]
  case intA.false t vs => cases t <;> simp_all [ArrayM.dataType, IntTy.toDataType]
  case intA.true t vs => cases t <;> simp_all [ArrayM.dataType, IntTy.toDataType]
  case fpA.false b vs => cases b <;> simp_all [ArrayM.dataType]
  case fpA.true b vs => cases b <;> simp_all [ArrayM.dataType]
  case strA.false b vs => cases b <;> simp_all [ArrayM.dataType]
  case strA.true b vs => cases b <;> simp_all [ArrayM.dataType]
  case binA.false b vs => cases b <;> simp_all [ArrayM.dataType]
  case binA.true b vs => cases b <;> simp_all [ArrayM.dataType]

theorem shape_binA : ∀ (a : ArrayM) (b : Bool),
    a.dataType = (if b then .largeBinary else .binary) → ∃ vs, a = .binA b vs := by
  intro a b h
  cases a <;> cases b <;> try simp_all [ArrayM.dataType]
  case intA.false t vs => cases t <;> simp_all [ArrayM.dataType, IntTy.toDataType]
  case intA.true t vs => cases t <;> simp_all [ArrayM.dataType, IntTy.toDataType]
  case fpA.false b vs => cases b <;> simp_all [ArrayM.dataType]
  case fpA.true b vs => cases b <;> simp_all [ArrayM.dataType]
  case strA.false b vs => cases b <;> simp_all [ArrayM.dataType]
  case strA.true b vs => cases b <;> simp_all [ArrayM.dataType]
  case binA.false b vs => cases b <;> simp_all [ArrayM.dataType]
  case binA.true b vs => cases b <;> simp_all [ArrayM.dataType]

theorem shape_decA : ∀ (a : ArrayM) (p s : Nat), a.dataType = .decimal p s →
    ∃ vs, a = .decA p s vs := by
  intro a p s h
  cases a <;> try simp_all [ArrayM.dataType]
  case intA t vs => cases t <;> simp_all [ArrayM.dataType, IntTy.toDataType]
  case fpA b vs => cases b <;> simp_all [ArrayM.dataType]
  case strA b vs => cases b <;> simp_all [ArrayM.dataType]
  case binA b vs => cases b <;> simp_all [ArrayM.dataType]

theorem shape_tsA : ∀ (a : ArrayM) (u : TimeUnitM) (tz : Option String),
    a.dataType = .timestamp u tz → ∃ vs, a = .tsA u tz vs := by
  intro a u tz h
  cases a <;> try simp_all [ArrayM.dataType]
  case intA t vs => cases t <;> simp_all [ArrayM.dataType, IntTy.toDataType]
  case fpA b vs => cases b <;> simp_all [ArrayM.dataType]
  case strA b vs => cases b <;> simp_all [ArrayM.dataType]
  case binA b vs => cases b <;> simp_all [ArrayM.dataType]

theorem tfa_intA : ∀ (t : IntTy) (vs : List (Option Int)) (i : Nat) (sv : ScalarValue),
    ScalarValue.try_from_array (.intA t vs) i = .ok sv →
    sv = t.toScalar (vs.getD i none) := by
  intro t vs i sv hok
  cases hc : vs.getD i none <;> cases t <;>
    simp_all [ScalarValue.try_from_array, ArrayM.isValid, ArrayM.dataType,
              IntTy.toDataType, IntTy.toScalar, ScalarValue.try_from_datatype, hc]

theorem tfa_boolA : ∀ (vs : List (Option Bool)) (i : Nat) (sv : ScalarValue),
    ScalarValue.try_from_array (.boolA vs) i = .ok sv →
    sv = .Boolean (vs.getD i none) := by
  intro vs i sv hok
  cases hc : vs.getD i none <;>
    simp_all [ScalarValue.try_from_array, ArrayM.isValid, ArrayM.dataType,
              ScalarValue.try_from_datatype, hc]

theorem tfa_fpA : ∀ (b : Bool) (vs : List (Option Fp)) (i : Nat) (sv : ScalarValue),
    ScalarValue.try_from_array (.fpA b vs) i = .ok sv →
    sv = (if b then ScalarValue.Float64 (vs.getD i none) else .Float32 (vs.getD i none)) := by
  intro b vs i sv hok
  cases hc : vs.getD i none <;> cases b <;>
    simp_all [ScalarValue.try_from_array, ArrayM.isValid, ArrayM.dataType,
              ScalarValue.try_from_datatype, hc]

theorem tfa_strA : ∀ (b : Bool) (vs : List (Option String)) (i : Nat) (sv : ScalarValue),
    ScalarValue.try_from_array (.strA b vs) i = .ok sv →
    sv = (if b then ScalarValue.LargeUtf8 (vs.getD i none) else .Utf8 (vs.getD i none)) := by
  intro b vs i sv hok
  cases hc : vs.getD i none <;> cases b <;>
    simp_all [ScalarValue.try_from_array, ArrayM.isValid, ArrayM.dataType,
              ScalarValue.try_from_datatype, hc]

theorem tfa_binA : ∀ (b : Bool) (vs : List (Option (List Nat))) (i : Nat) (sv : ScalarValue),
    ScalarValue.try_from_array (.binA b vs) i = .ok sv →
    sv = (if b then ScalarValue.LargeBinary (vs.getD i none) else .Binary (vs.getD i none)) := by
  intro b vs i sv hok
  cases hc : vs.getD i none <;> cases b <;>
    simp_all [ScalarValue.try_from_array, ArrayM.isValid, ArrayM.dataType,
              ScalarValue.try_from_datatype, hc]

theorem tfa_decA : ∀ (p s : Nat) (vs : List (Option Int)) (i : Nat) (sv : ScalarValue),
    ScalarValue.try_from_array (.decA p s vs) i = .ok sv →
    sv = .Decimal128 (vs.getD i none) p s := by
  intro p s vs i sv hok
  cases hc : vs.getD i none <;>
    simp_all [ScalarValue.try_from_array, ArrayM.isValid, ArrayM.dataType,
              ScalarValue.try_from_datatype, ScalarValue.get_decimal_value, hc]

theorem tfa_tsA : ∀ (u : TimeUnitM) (tz : Option String) (vs : List (Option Int))
    (i : Nat) (sv : ScalarValue),
    ScalarValue.try_from_array (.tsA u tz vs) i = .ok sv →
    sv = (match u with
          | .second => ScalarValue.TimestampSecond (vs.getD i none) tz
          | .millisecond => .TimestampMillisecond (vs.getD i none) tz
          | .microsecond => .TimestampMicrosecond (vs.getD i none) tz
          | .nanosecond => .TimestampNanosecond (vs.getD i none) tz) := by
  intro u tz vs i sv hok
  cases hc : vs.getD i none <;> cases u <;>
    simp_all [ScalarValue.try_from_array, ArrayM.isValid, ArrayM.dataType,
              ScalarValue.try_from_datatype, hc]
theorem matchOK_try_from_datatype : ∀ (s : ScalarValue) (a : ArrayM), MatchOK s a →
    ScalarValue.try_from_datatype a.dataType
      = ScalarValue.try_from_datatype s.get_datatype := by
  intro s a hm
  induction hm with
  | base a2 hdt => rw [hdt]
  | dict kt keys values hk hb hm ih =>
      simpa [ArrayM.dataType, ScalarValue.try_from_datatype] using ih

theorem eq_null_scalar : ∀ (s sv : ScalarValue), s.eq_array_supported = true →
    ScalarValue.try_from_datatype s.get_datatype = .ok sv →
    ScalarValue.eq sv s = s.is_null := by
  intro s sv hs hok
  cases s <;> simp only [ScalarValue.eq_array_supported] at hs <;>
    try exact Bool.noConfusion hs
  all_goals
    simp only [ScalarValue.get_datatype, ScalarValue.try_from_datatype] at hok
  all_goals first
    | exact Except.noConfusion hok
    | (injection hok with h
       subst h
       rename_i v
       cases v <;> rfl)
    | (injection hok with h
       subst h
       rename_i v z
       cases v <;> rfl)
    | (injection hok with h
       subst h
       rename_i v p q
       cases v <;> first
         | rfl
         | (show (none == (none : Option Int) && p == p && q == q) = true
            simp))

theorem tfa_dictA : ∀ (kt : DataTypeM) (keys : List (Option Nat)) (values : ArrayM)
    (i : Nat) (hk : dictKeyTypeOK kt = true) (hlen : i < keys.length),
    ScalarValue.try_from_array (.dictA kt keys values) i =
      (match keys[i] with
       | none => ScalarValue.try_from_datatype values.dataType
       | some j => ScalarValue.try_from_array values j) := by
  intro kt keys values i hk hlen
  have hge : keys[i]? = some keys[i] := List.getElem?_eq_getElem hlen
  cases hki : keys[i] <;>
    simp [ScalarValue.try_from_array, ArrayM.isValid, ArrayM.dataType,
          ScalarValue.try_from_datatype, List.getD, hge, hki, hk]

theorem eqarr_dictA : ∀ (s : ScalarValue) (kt : DataTypeM) (keys : List (Option Nat))
    (values : ArrayM) (i : Nat) (hk : dictKeyTypeOK kt = true) (hlen : i < keys.length),
    ScalarValue.eq_array s (.dictA kt keys values) i =
      (match keys[i] with
       | none => some s.is_null
       | some j => ScalarValue.eq_array s values j) := by
  intro s kt keys values i hk hlen
  have hge : keys[i]? = some keys[i] := List.getElem?_eq_getElem hlen
  cases hki : keys[i] <;>
    simp [ScalarValue.eq_array, ScalarValue.eq_array_dictionary, List.getD, hge, hki, hk]

set_option maxHeartbeats 2000000 in
/-- C3 (amended): for every scalar `s` that is not `List`, `Struct` or `Null`
and whose float payload is not NaN, every matching array `a` (data type equal
to `s`'s declared type, through any chain of integer-keyed dictionary
encodings with in-bounds keys) and every in-bounds index `i` at which
`try_from_array` succeeds, `eq_array` returns exactly the boolean
`try_from_array(a, i).unwrap() == s`. -/
theorem eq_array_equiv_from_array :
    ∀ (s : ScalarValue) (a : ArrayM), MatchOK s a →
      s.eq_array_supported = true → s.float_not_nan = true →
      ∀ (i : Nat) (sv : ScalarValue), i < a.len →
        ScalarValue.try_from_array a i = .ok sv →
        ScalarValue.eq_array s a i = some (ScalarValue.eq sv s) := by
  intro s a hm
  induction hm with
  | dict kt keys values hk hb hmv ih =>
      intro hs hnan i sv hlen hok
      have hlen2 : i < keys.length := by simpa [ArrayM.len] using hlen
      rw [tfa_dictA kt keys values i hk hlen2] at hok
      rw [eqarr_dictA s kt keys values i hk hlen2]
      cases hki : keys[i] with
      | none =>
          rw [hki] at hok
          simp only at hok
          rw [matchOK_try_from_datatype s values hmv] at hok
          simp only
          rw [eq_null_scalar s sv hs hok]
      | some j =>
          rw [hki] at hok
          simp only at hok
          simp only
          have hj : j < values.len := by
            refine hb keys[i] (List.getElem_mem _) j ?_
            rw [hki]
          exact ih hs hnan j sv hj hok
  | base a hdt =>
      intro hs hnan i sv hlen hok
      clear hlen
      cases s with
      | ListSV v t => exact Bool.noConfusion hs
      | Struct v f => exact Bool.noConfusion hs
      | Null => exact Bool.noConfusion hs
      | Boolean val =>
          obtain ⟨vs, rfl⟩ := shape_boolA a (by simpa [ScalarValue.get_datatype] using hdt)
          obtain rfl := tfa_boolA vs i sv hok
          simp [ScalarValue.eq_array, ScalarValue.eq_array_nondict, eqArrayPrim_eq_beq,
                ScalarValue.eq]
      | Float32 val =>
          obtain ⟨vs, rfl⟩ := shape_fpA a false (by simpa [ScalarValue.get_datatype] using hdt)
          obtain rfl := tfa_fpA false vs i sv hok
          have hstep := eqArrayPrimFp_eq_optOrdEq vs i val
            (by intro b hb; rw [hb] at hnan; exact Bool.noConfusion hnan)
          simp [ScalarValue.eq_array, ScalarValue.eq_array_nondict, hstep, ScalarValue.eq]
      | Float64 val =>
          obtain ⟨vs, rfl⟩ := shape_fpA a true (by simpa [ScalarValue.get_datatype] using hdt)
          obtain rfl := tfa_fpA true vs i sv hok
          have hstep := eqArrayPrimFp_eq_optOrdEq vs i val
            (by intro b hb; rw [hb] at hnan; exact Bool.noConfusion hnan)
          simp [ScalarValue.eq_array, ScalarValue.eq_array_nondict, hstep, ScalarValue.eq]
      | Decimal128 val p sc =>
          obtain ⟨vs, rfl⟩ := shape_decA a p sc (by simpa [ScalarValue.get_datatype] using hdt)
          obtain rfl := tfa_decA p sc vs i sv hok
          cases hc : vs.getD i none <;> cases val <;>
            (simp only [List.getD_eq_getElem?_getD] at hc
             simp [ScalarValue.eq_array, ScalarValue.eq_array_nondict, eqArrayDecimal,
                   ScalarValue.eq, hc])
      | Int8 val =>
          obtain ⟨vs, rfl⟩ := shape_intA a .i8 (by simpa [ScalarValue.get_datatype, IntTy.toDataType] using hdt)
          obtain rfl := tfa_intA .i8 vs i sv hok
          simp [ScalarValue.eq_array, ScalarValue.eq_array_nondict, eqArrayPrim_eq_beq,
                ScalarValue.eq, IntTy.toScalar]
      | Int16 val =>
          obtain ⟨vs, rfl⟩ := shape_intA a .i16 (by simpa [ScalarValue.get_datatype, IntTy.toDataType] using hdt)
          obtain rfl := tfa_intA .i16 vs i sv hok
          simp [ScalarValue.eq_array, ScalarValue.eq_array_nondict, eqArrayPrim_eq_beq,
                ScalarValue.eq, IntTy.toScalar]
      | Int32 val =>
          obtain ⟨vs, rfl⟩ := shape_intA a .i32 (by simpa [ScalarValue.get_datatype, IntTy.toDataType] using hdt)
          obtain rfl := tfa_intA .i32 vs i sv hok
          simp [ScalarValue.eq_array, ScalarValue.eq_array_nondict, eqArrayPrim_eq_beq,
                ScalarValue.eq, IntTy.toScalar]
      | Int64 val =>
          obtain ⟨vs, rfl⟩ := shape_intA a .i64 (by simpa [ScalarValue.get_datatype, IntTy.toDataType] using hdt)
          obtain rfl := tfa_intA .i64 vs i sv hok
          simp [ScalarValue.eq_array, ScalarValue.eq_array_nondict, eqArrayPrim_eq_beq,
                ScalarValue.eq, IntTy.toScalar]
      | UInt8 val =>
          obtain ⟨vs, rfl⟩ := shape_intA a .u8 (by simpa [ScalarValue.get_datatype, IntTy.toDataType] using hdt)
          obtain rfl := tfa_intA .u8 vs i sv hok
          simp [ScalarValue.eq_array, ScalarValue.eq_array_nondict, eqArrayPrim_eq_beq,
                ScalarValue.eq, IntTy.toScalar]
      | UInt16 val =>
          obtain ⟨vs, rfl⟩ := shape_intA a .u16 (by simpa [ScalarValue.get_datatype, IntTy.toDataType] using hdt)
          obtain rfl := tfa_intA .u16 vs i sv hok
          simp [ScalarValue.eq_array, ScalarValue.eq_array_nondict, eqArrayPrim_eq_beq,
                ScalarValue.eq, IntTy.toScalar]
      | UInt32 val =>
          obtain ⟨vs, rfl⟩ := shape_intA a .u32 (by simpa [ScalarValue.get_datatype, IntTy.toDataType] using hdt)
          obtain rfl := tfa_intA .u32 vs i sv hok
          simp [ScalarValue.eq_array, ScalarValue.eq_array_nondict, eqArrayPrim_eq_beq,
                ScalarValue.eq, IntTy.toScalar]
      | UInt64 val =>
          obtain ⟨vs, rfl⟩ := shape_intA a .u64 (by simpa [ScalarValue.get_datatype, IntTy.toDataType] using hdt)
          obtain rfl := tfa_intA .u64 vs i sv hok
          simp [ScalarValue.eq_array, ScalarValue.eq_array_nondict, eqArrayPrim_eq_beq,
                ScalarValue.eq, IntTy.toScalar]
      | Date32 val =>
          obtain ⟨vs, rfl⟩ := shape_intA a .date32T (by simpa [ScalarValue.get_datatype, IntTy.toDataType] using hdt)
          obtain rfl := tfa_intA .date32T vs i sv hok
          simp [ScalarValue.eq_array, ScalarValue.eq_array_nondict, eqArrayPrim_eq_beq,
                ScalarValue.eq, IntTy.toScalar]
      | Date64 val =>
          obtain ⟨vs, rfl⟩ := shape_intA a .date64T (by simpa [ScalarValue.get_datatype, IntTy.toDataType] using hdt)
          obtain rfl := tfa_intA .date64T vs i sv hok
          simp [ScalarValue.eq_array, ScalarValue.eq_array_nondict, eqArrayPrim_eq_beq,
                ScalarValue.eq, IntTy.toScalar]
      | IntervalYearMonth val =>
          obtain ⟨vs, rfl⟩ := shape_intA a .ivYearMonth (by simpa [ScalarValue.get_datatype, IntTy.toDataType] using hdt)
          obtain rfl := tfa_intA .ivYearMonth vs i sv hok
          simp [ScalarValue.eq_array, ScalarValue.eq_array_nondict, eqArrayPrim_eq_beq,
                ScalarValue.eq, IntTy.toScalar]
      | IntervalDayTime val =>
          obtain ⟨vs, rfl⟩ := shape_intA a .ivDayTime (by simpa [ScalarValue.get_datatype, IntTy.toDataType] using hdt)
          obtain rfl := tfa_intA .ivDayTime vs i sv hok
          simp [ScalarValue.eq_array, ScalarValue.eq_array_nondict, eqArrayPrim_eq_beq,
                ScalarValue.eq, IntTy.toScalar]
      | IntervalMonthDayNano val =>
          obtain ⟨vs, rfl⟩ := shape_intA a .ivMonthDayNano (by simpa [ScalarValue.get_datatype, IntTy.toDataType] using hdt)
          obtain rfl := tfa_intA .ivMonthDayNano vs i sv hok
          simp [ScalarValue.eq_array, ScalarValue.eq_array_nondict, eqArrayPrim_eq_beq,
                ScalarValue.eq, IntTy.toScalar]
      | Utf8 val =>
          obtain ⟨vs, rfl⟩ := shape_strA a false (by simpa [ScalarValue.get_datatype] using hdt)
          obtain rfl := tfa_strA false vs i sv hok
          simp [ScalarValue.eq_array, ScalarValue.eq_array_nondict, eqArrayPrim_eq_beq,
                ScalarValue.eq]
      | LargeUtf8 val =>
          obtain ⟨vs, rfl⟩ := shape_strA a true (by simpa [ScalarValue.get_datatype] using hdt)
          obtain rfl := tfa_strA true vs i sv hok
          simp [ScalarValue.eq_array, ScalarValue.eq_array_nondict, eqArrayPrim_eq_beq,
                ScalarValue.eq]
      | Binary val =>
          obtain ⟨vs, rfl⟩ := shape_binA a false (by simpa [ScalarValue.get_datatype] using hdt)
          obtain rfl := tfa_binA false vs i sv hok
          simp [ScalarValue.eq_array, ScalarValue.eq_array_nondict, eqArrayPrim_eq_beq,
                ScalarValue.eq]
      | LargeBinary val =>
          obtain ⟨vs, rfl⟩ := shape_binA a true (by simpa [ScalarValue.get_datatype] using hdt)
          obtain rfl := tfa_binA true vs i sv hok
          simp [ScalarValue.eq_array, ScalarValue.eq_array_nondict, eqArrayPrim_eq_beq,
                ScalarValue.eq]
      | TimestampSecond val tz =>
          obtain ⟨vs, rfl⟩ := shape_tsA a .second tz (by simpa [ScalarValue.get_datatype] using hdt)
          obtain rfl := tfa_tsA .second tz vs i sv hok
          simp [ScalarValue.eq_array, ScalarValue.eq_array_nondict, eqArrayPrim_eq_beq,
                ScalarValue.eq]
      | TimestampMillisecond val tz =>
          obtain ⟨vs, rfl⟩ := shape_tsA a .millisecond tz (by simpa [ScalarValue.get_datatype] using hdt)
          obtain rfl := tfa_tsA .millisecond tz vs i sv hok
          simp [ScalarValue.eq_array, ScalarValue.eq_array_nondict, eqArrayPrim_eq_beq,
                ScalarValue.eq]
      | TimestampMicrosecond val tz =>
          obtain ⟨vs, rfl⟩ := shape_tsA a .microsecond tz (by simpa [ScalarValue.get_datatype] using hdt)
          obtain rfl := tfa_tsA .microsecond tz vs i sv hok
          simp [ScalarValue.eq_array, ScalarValue.eq_array_nondict, eqArrayPrim_eq_beq,
                ScalarValue.eq]
      | TimestampNanosecond val tz =>
          obtain ⟨vs, rfl⟩ := shape_tsA a .nanosecond tz (by simpa [ScalarValue.get_datatype] using hdt)
          obtain rfl := tfa_tsA .nanosecond tz vs i sv hok
          simp [ScalarValue.eq_array, ScalarValue.eq_array_nondict, eqArrayPrim_eq_beq,
                ScalarValue.eq]

unseal ScalarValue.to_array_of_size ScalarValue.try_from_array
  ScalarValue.rows_to_scalars in
/-- C1: the materialize/extract round trip fails for timestamp lists.  The
`build_timestamp_list!` Millisecond arm extracts with the MICROSECOND
pattern and the Microsecond arm with the MILLISECOND pattern, so a
well-typed list of millisecond (or microsecond) timestamps panics in
`to_array_of_size`; an ill-typed list declared Microsecond but holding
Millisecond elements instead builds, exposing the swap.  The Second arm
does round-trip, as the claim demands. -/
theorem to_array_timestamp_list_roundtrip_fails :
    (∀ fuel : Nat,
      ScalarValue.to_array_of_size fuel
        (.ListSV (some [.TimestampMillisecond (some 1) none])
          (.timestamp .millisecond none)) 1 = none)
    ∧ (∀ fuel : Nat,
      ScalarValue.to_array_of_size fuel
        (.ListSV (some [.TimestampMicrosecond (some 1) none])
          (.timestamp .microsecond none)) 1 = none)
    ∧ ScalarValue.to_array_of_size 1
        (.ListSV (some [.TimestampMillisecond (some 2) none])
          (.timestamp .microsecond none)) 1
        = some (.listA (.timestamp .millisecond none)
            [some (.tsA .millisecond none [some 2])])
    ∧ (ScalarValue.to_array_of_size 1
        (.ListSV (some [.TimestampSecond (some 3) none])
          (.timestamp .second none)) 1
        = some (.listA (.timestamp .second none)
            [some (.tsA .second none [some 3])])
      ∧ ScalarValue.try_from_array
          (.listA (.timestamp .second none)
            [some (.tsA .second none [some 3])]) 0
          = .ok (.ListSV (some [.TimestampSecond (some 3) none])
              (.timestamp .second none))) :=
  ⟨fun fuel => match fuel with | 0 => rfl | _ + 1 => rfl,
   fun fuel => match fuel with | 0 => rfl | _ + 1 => rfl,
   rfl, ⟨rfl, rfl⟩⟩

unseal ScalarValue.try_from_array ScalarValue.eq_array in
/-- C3 counterexample: for a NaN float cell, `eq_array` uses IEEE `==`
(NaN is unequal to itself) and answers `some false`, while extracting the
cell and comparing with `PartialEq` (OrderedFloat semantics, NaN equal to
itself) answers `true` — so `eq_array` is not equivalent to
`from_array(...) == self` on NaN payloads. -/
theorem eq_array_nan_disagrees_with_from_array :
    ScalarValue.try_from_array (.fpA false [some (.nan 0)]) 0
      = .ok (.Float32 (some (.nan 0)))
    ∧ ScalarValue.eq (.Float32 (some (.nan 0))) (.Float32 (some (.nan 0))) = true
    ∧ ScalarValue.eq_array (.Float32 (some (.nan 0))) (.fpA false [some (.nan 0)]) 0
      = some false :=
  ⟨rfl, rfl, rfl⟩

unseal ScalarValue.try_from_array in
/-- Witness for the amended C3 theorem at a concrete Int32 column. -/
theorem eq_array_equiv_from_array_witness :
    ScalarValue.eq_array (.Int32 (some 5)) (.intA .i32 [some 5]) 0
      = some (ScalarValue.eq (.Int32 (some 5)) (.Int32 (some 5))) := by
  have hok : ScalarValue.try_from_array (.intA .i32 [some 5]) 0
      = .ok (.Int32 (some 5)) := rfl
  exact eq_array_equiv_from_array (.Int32 (some 5)) (.intA .i32 [some 5])
    (MatchOK.base _ _ rfl) rfl rfl 0 (.Int32 (some 5)) (by decide) hok

theorem isMarker_self (m : String) : isMarker m (litStr m) = true := by
  simp [isMarker, litStr]

theorem isMarker_ne (m m' : String) (h : m' ≠ m) : isMarker m (litStr m') = false := by
  simp [isMarker, litStr, h]

theorem all_not_marker {m : String} {l : List ExprM}
    (h : l.all (fun x => !(isMarker m x)) = true) :
    ∀ x ∈ l, isMarker m x = false := by
  intro x hx
  have h2 := List.all_eq_true.mp h x hx
  simpa using h2

theorem findIdx_marker_at {p : ExprM → Bool} (xs : List ExprM) (y : ExprM)
    (ys : List ExprM) (hx : ∀ x ∈ xs, p x = false) (hy : p y = true) :
    (xs ++ y :: ys).findIdx? p = some xs.length := by
  induction xs with
  | nil => simp [List.findIdx?_cons, hy]
  | cons a rest ih =>
      have ha := hx a (by simp)
      have ih2 := ih (fun x hx2 => hx x (by simp [hx2]))
      simp [List.findIdx?_cons, ha, ih2]

theorem take_len_append {α : Type} (xs ys : List α) : (xs ++ ys).take xs.length = xs := by
  induction xs with
  | nil => rfl
  | cons a rest ih => simp [ih]

theorem drop_len_append {α : Type} (xs ys : List α) : (xs ++ ys).drop xs.length = ys := by
  induction xs with
  | nil => rfl
  | cons a rest ih => simp [ih]

theorem caseLoop_whenThen (wt : List (ExprM × ExprM)) (tail : List ExprM)
    (b e : Option ExprM) (acc : List (ExprM × ExprM))
    (h : ∀ p ∈ wt, isMarker CASE_EXPR_MARKER p.1 = false
      ∧ isMarker CASE_ELSE_MARKER p.1 = false) :
    caseLoop (wt.flatMap (fun p => [p.1, p.2]) ++ tail) b acc e
      = caseLoop tail b (acc ++ wt) e := by
  induction wt generalizing acc with
  | nil => simp
  | cons p rest ih =>
      have h1 := (h p (by simp)).1
      have h2 := (h p (by simp)).2
      have ih2 := ih (acc ++ [p]) (fun q hq => h q (List.mem_cons_of_mem _ hq))
      calc caseLoop ((p :: rest).flatMap (fun p => [p.1, p.2]) ++ tail) b acc e
          = caseLoop (rest.flatMap (fun p => [p.1, p.2]) ++ tail) b (acc ++ [p]) e := by
            simp [caseLoop, h1, h2, List.flatMap]
        _ = caseLoop tail b ((acc ++ [p]) ++ rest) e := ih2
        _ = caseLoop tail b (acc ++ p :: rest) e := by
            rw [List.append_assoc]; rfl

set_option maxHeartbeats 1000000 in
/-- C5 (amended): rebuilding an expression from its own children is the
identity for every variant except the ones the code rebuilds differently —
`Between` (turned into a `GtEq`/`LtEq` conjunction) and `GroupingSet::Cube`
(turned into a `Rollup`) — and the rejected `GroupingSet::GroupingSets` and
wildcards, provided the window function's arguments carry no sentinel
markers (partition or sort) and no `Case` when-expression is itself a
sentinel marker. -/
theorem rewrite_roundtrip_identity :
    ∀ e : ExprM, e.roundTripOK = true → e.roundTrip = .ok e := by
  intro e h
  cases e with
  | aliasE e nm => rfl
  | column c => rfl
  | scalarVariable ty ns => rfl
  | literal v => rfl
  | binaryExpr l op r => rfl
  | notE e => rfl
  | isNotNull e => rfl
  | isNull e => rfl
  | negative e => rfl
  | getIndexedField e k => rfl
  | between e neg lo hi => exact Bool.noConfusion h
  | cast e ty => rfl
  | tryCast e ty => rfl
  | sortE e a nf => rfl
  | scalarFunction f args => rfl
  | scalarUDF f args => rfl
  | aggregateFunction f args d => rfl
  | aggregateUDF f args => rfl
  | inList e l neg => rfl
  | existsE s neg => rfl
  | inSubquery e s neg => rfl
  | scalarSubquery s => rfl
  | wildcard => exact Bool.noConfusion h
  | qualifiedWildcard q => exact Bool.noConfusion h
  | groupingSet g =>
      cases g with
      | rollup exprs => rfl
      | cube exprs => exact Bool.noConfusion h
      | groupingSets s => exact Bool.noConfusion h
  | windowFunction f args pb ob wf =>
      simp only [ExprM.roundTripOK, Bool.and_eq_true] at h
      obtain ⟨⟨hargs1, hargs2⟩, hpb⟩ := h
      have hp : (args ++ litStr WINDOW_PARTITION_MARKER
            :: (pb ++ litStr WINDOW_SORT_MARKER :: ob)).findIdx?
            (isMarker WINDOW_PARTITION_MARKER) = some args.length :=
        findIdx_marker_at args _ _ (all_not_marker hargs1) (isMarker_self _)
      have hs0 : ∀ x ∈ args ++ litStr WINDOW_PARTITION_MARKER :: pb,
          isMarker WINDOW_SORT_MARKER x = false := by
        intro x hx
        rcases List.mem_append.mp hx with hA | hB
        · exact all_not_marker hargs2 x hA
        · rcases List.mem_cons.mp hB with rfl | hC
          · exact isMarker_ne _ _ (by decide)
          · exact all_not_marker hpb x hC
      have hs := findIdx_marker_at (args ++ litStr WINDOW_PARTITION_MARKER :: pb)
        (litStr WINDOW_SORT_MARKER) ob hs0 (isMarker_self _)
      rw [List.append_assoc, List.cons_append] at hs
      have htake : (args ++ litStr WINDOW_PARTITION_MARKER
          :: (pb ++ litStr WINDOW_SORT_MARKER :: ob)).take args.length = args := by
        have := take_len_append args (litStr WINDOW_PARTITION_MARKER
          :: (pb ++ litStr WINDOW_SORT_MARKER :: ob))
        exact this
      have hdrop1 : (args ++ litStr WINDOW_PARTITION_MARKER
          :: (pb ++ litStr WINDOW_SORT_MARKER :: ob)).drop (args.length + 1)
          = pb ++ litStr WINDOW_SORT_MARKER :: ob := by
        have h0 := drop_len_append (args ++ [litStr WINDOW_PARTITION_MARKER])
          (pb ++ litStr WINDOW_SORT_MARKER :: ob)
        simpa [List.append_assoc] using h0
      have harith : (args ++ litStr WINDOW_PARTITION_MARKER :: pb).length
          - (args.length + 1) = pb.length := by
        simp only [List.length_append, List.length_cons] <;> omega
      have htake2 : (pb ++ litStr WINDOW_SORT_MARKER :: ob).take pb.length = pb :=
        take_len_append pb _
      have hshape : (args ++ litStr WINDOW_PARTITION_MARKER
            :: (pb ++ [litStr WINDOW_SORT_MARKER])) ++ ob
          = args ++ litStr WINDOW_PARTITION_MARKER
            :: (pb ++ litStr WINDOW_SORT_MARKER :: ob) := by
        simp
      have hlen2 : (args ++ litStr WINDOW_PARTITION_MARKER
            :: (pb ++ [litStr WINDOW_SORT_MARKER])).length
          = (args ++ litStr WINDOW_PARTITION_MARKER :: pb).length + 1 := by
        simp only [List.length_append, List.length_cons, List.length_nil] <;> omega
      have hdrop2 : (args ++ litStr WINDOW_PARTITION_MARKER
          :: (pb ++ litStr WINDOW_SORT_MARKER :: ob)).drop
          ((args ++ litStr WINDOW_PARTITION_MARKER :: pb).length + 1)
          = ob := by
        have h0 := drop_len_append
          (args ++ litStr WINDOW_PARTITION_MARKER :: (pb ++ [litStr WINDOW_SORT_MARKER])) ob
        rw [hshape, hlen2] at h0
        exact h0
      have hineq : ¬ args.length ≥ (args ++ litStr WINDOW_PARTITION_MARKER :: pb).length := by
        simp only [List.length_append, List.length_cons] <;> omega
      simp only [ExprM.roundTrip, ExprM.expr_sub_expressions, ExprM.rewrite_expression,
        hp, hs, if_neg hineq, htake, hdrop1, harith, htake2, hdrop2]
  | caseE b wt els =>
      simp only [ExprM.roundTripOK] at h
      have hwt : ∀ p ∈ wt, isMarker CASE_EXPR_MARKER p.1 = false
          ∧ isMarker CASE_ELSE_MARKER p.1 = false := by
        intro p hp
        have h2 := List.all_eq_true.mp h p hp
        simp [Bool.and_eq_true] at h2
        exact h2
      have hCE : isMarker CASE_EXPR_MARKER (litStr CASE_EXPR_MARKER) = true :=
        isMarker_self _
      have hEE : isMarker CASE_ELSE_MARKER (litStr CASE_ELSE_MARKER) = true :=
        isMarker_self _
      have hX : isMarker CASE_EXPR_MARKER (litStr CASE_ELSE_MARKER) = false :=
        isMarker_ne _ _ (by decide)
      cases b with
      | none =>
          cases els with
          | none =>
              have hloop := caseLoop_whenThen wt [] none none [] hwt
              simp only [List.append_nil, List.nil_append] at hloop
              simp only [ExprM.roundTrip, ExprM.expr_sub_expressions,
                ExprM.rewrite_expression, List.cons_append, List.nil_append,
                List.append_nil, caseLoop, hCE, hX, hEE, Bool.false_eq_true,
                if_false, if_true, hloop, Except.map]
          | some ev =>
              have hloop := caseLoop_whenThen wt
                [litStr CASE_ELSE_MARKER, ev] none none [] hwt
              simp only [List.append_nil, List.nil_append] at hloop
              simp only [ExprM.roundTrip, ExprM.expr_sub_expressions,
                ExprM.rewrite_expression, List.cons_append, List.nil_append,
                List.append_nil, caseLoop, hCE, hX, hEE, Bool.false_eq_true,
                if_false, if_true, hloop, Except.map]
      | some bv =>
          cases els with
          | none =>
              have hloop := caseLoop_whenThen wt [] (some bv) none [] hwt
              simp only [List.append_nil, List.nil_append] at hloop
              simp only [ExprM.roundTrip, ExprM.expr_sub_expressions,
                ExprM.rewrite_expression, List.cons_append, List.nil_append,
                List.append_nil, caseLoop, hCE, hX, hEE, Bool.false_eq_true,
                if_false, if_true, hloop, Except.map]
          | some ev =>
              have hloop := caseLoop_whenThen wt
                [litStr CASE_ELSE_MARKER, ev] (some bv) none [] hwt
              simp only [List.append_nil, List.nil_append] at hloop
              simp only [ExprM.roundTrip, ExprM.expr_sub_expressions,
                ExprM.rewrite_expression, List.cons_append, List.nil_append,
                List.append_nil, caseLoop, hCE, hX, hEE, Bool.false_eq_true,
                if_false, if_true, hloop, Except.map]

/-- Witness for the amended C5 theorem: a full `Case` expression with base,
one when/then arm and an else round-trips unchanged. -/
theorem rewrite_roundtrip_identity_witness :
    ExprM.roundTrip (.caseE (some (.column (none, "x")))
        [(.literal (.Boolean (some true)), .literal (.Int32 (some 1)))]
        (some (.literal (.Int32 (some 0)))))
      = .ok (.caseE (some (.column (none, "x")))
        [(.literal (.Boolean (some true)), .literal (.Int32 (some 1)))]
        (some (.literal (.Int32 (some 0))))) :=
  rewrite_roundtrip_identity _ (by decide)

/-- C5 counterexample: `Between` does not survive the round trip (it is
rebuilt as a `GtEq`/`LtEq` conjunction), and `GroupingSet::Cube` comes back
as a `Rollup`. -/
theorem rewrite_not_lossless_between_cube :
    (ExprM.roundTrip (.between (.column (none, "a")) false
        (.literal (.Int32 (some 1))) (.literal (.Int32 (some 2))))
      = .ok (.binaryExpr
          (.binaryExpr (.column (none, "a")) "GtEq" (.literal (.Int32 (some 1))))
          "And"
          (.binaryExpr (.column (none, "a")) "LtEq" (.literal (.Int32 (some 2)))))
      ∧ ExprM.binaryExpr
          (.binaryExpr (.column (none, "a")) "GtEq" (.literal (.Int32 (some 1))))
          "And"
          (.binaryExpr (.column (none, "a")) "LtEq" (.literal (.Int32 (some 2))))
        ≠ .between (.column (none, "a")) false
          (.literal (.Int32 (some 1))) (.literal (.Int32 (some 2))))
    ∧ (ExprM.roundTrip (.groupingSet (.cube [.column (none, "b")]))
      = .ok (.groupingSet (.rollup [.column (none, "b")]))
      ∧ ExprM.groupingSet (.rollup [.column (none, "b")])
        ≠ .groupingSet (.cube [.column (none, "b")])) :=
  ⟨⟨rfl, fun h => ExprM.noConfusion h⟩,
   ⟨rfl, fun h => by injection h with h2; exact GroupingSetM.noConfusion h2⟩⟩

theorem chunksExact_flatten {α : Type} (w : Nat) (hw : 0 < w)
    (rows : List (List α)) (h : ∀ r ∈ rows, r.length = w) :
    chunksExact w rows.flatten = rows := by
  induction rows with
  | nil =>
      cases w with
      | zero => omega
      | succ w' =>
          simp only [List.flatten_nil]
          have he : chunksExact (w' + 1) ([] : List α)
              = if h : w' + 1 ≤ ([] : List α).length then
                  ([] : List α).take (w' + 1)
                    :: chunksExact (w' + 1) (([] : List α).drop (w' + 1))
                else [] := by
            rw [chunksExact.eq_def]
          rw [he, dif_neg (by simp)]
  | cons r rest ih =>
      cases w with
      | zero => omega
      | succ w' =>
          have hr := h r (by simp)
          have hle : w' + 1 ≤ (r ++ rest.flatten).length := by
            simp only [List.length_append]
            omega
          have htake : (r ++ rest.flatten).take (w' + 1) = r := by
            rw [show w' + 1 = r.length from hr.symm]
            exact take_len_append r rest.flatten
          have hdrop : (r ++ rest.flatten).drop (w' + 1) = rest.flatten := by
            rw [show w' + 1 = r.length from hr.symm]
            exact drop_len_append r rest.flatten
          have ih2 := ih (fun q hq => h q (List.mem_cons_of_mem _ hq))
          simp only [List.flatten_cons]
          have he : chunksExact (w' + 1) (r ++ rest.flatten)
              = if h : w' + 1 ≤ (r ++ rest.flatten).length then
                  (r ++ rest.flatten).take (w' + 1)
                    :: chunksExact (w' + 1) ((r ++ rest.flatten).drop (w' + 1))
                else [] := by
            rw [chunksExact.eq_def]
          rw [he, dif_pos hle, htake, hdrop, ih2]

/-- C6 (amended): for every plan node other than `Explain`, rebuilding it
from its own expressions and inputs via `from_plan` succeeds and returns
the node itself, provided a `Values` node has a non-empty uniform row
shape and the schema stored in a `Join`, `CrossJoin` or `SubqueryAlias`
node equals the one `from_plan` recomputes from the inputs (as the
builder guarantees).  For `Explain` the rebuild panics: `inputs()` reports
the explained plan but the Explain arm of `from_plan` asserts the input
list is empty. -/
theorem from_plan_identity :
    ∀ p : LogicalPlanM, TopOK p → from_plan p p.expressionsM p.inputsM = .ok p := by
  intro p h
  cases p with
  | projection expr input schema al => rfl
  | filter predicate input => rfl
  | window input windowExpr schema =>
      simp [from_plan, LogicalPlanM.expressionsM, LogicalPlanM.inputsM, idxP,
        Bind.bind, Except.bind]
  | aggregate input g a schema =>
      simp [from_plan, LogicalPlanM.expressionsM, LogicalPlanM.inputsM, idxP,
        take_len_append, drop_len_append, Bind.bind, Except.bind]
  | sort expr input => rfl
  | join l r onKeys jt jc schema nen =>
      simp only [TopOK] at h
      simp [from_plan, LogicalPlanM.expressionsM, LogicalPlanM.inputsM, idxP, h,
        Bind.bind, Except.bind]
  | crossJoin l r schema =>
      simp only [TopOK] at h
      simp [from_plan, LogicalPlanM.expressionsM, LogicalPlanM.inputsM, idxP, h,
        Bind.bind, Except.bind]
  | repartition input scheme => cases scheme <;> rfl
  | union inputs schema al => rfl
  | tableScan nm s proj fs lim => rfl
  | emptyRelation b s => rfl
  | limit n input => rfl
  | subqueryAlias input al schema =>
      simp only [TopOK] at h
      simp [from_plan, LogicalPlanM.expressionsM, LogicalPlanM.inputsM, idxP, h,
        Bind.bind, Except.bind]
  | subquery sub => rfl
  | valuesP schema values =>
      obtain ⟨hw, hrows⟩ := h
      have hch := chunksExact_flatten schema.length hw values hrows
      simp [from_plan, LogicalPlanM.expressionsM, Nat.pos_iff_ne_zero.mp hw, hch]
  | explain v pl sp s => exact h.elim
  | analyze v input s => rfl

/-- Witness for the amended C6 theorem: an aggregate over an empty relation
rebuilds to itself. -/
theorem from_plan_identity_witness :
    from_plan
      (.aggregate (.emptyRelation false [(some "t", "a", .int32, true)])
        [.column (some "t", "a")] [.literal (.Int64 (some 1))]
        [(some "t", "a", .int32, true)])
      (LogicalPlanM.aggregate (.emptyRelation false [(some "t", "a", .int32, true)])
        [.column (some "t", "a")] [.literal (.Int64 (some 1))]
        [(some "t", "a", .int32, true)]).expressionsM
      (LogicalPlanM.aggregate (.emptyRelation false [(some "t", "a", .int32, true)])
        [.column (some "t", "a")] [.literal (.Int64 (some 1))]
        [(some "t", "a", .int32, true)]).inputsM
      = .ok (.aggregate (.emptyRelation false [(some "t", "a", .int32, true)])
        [.column (some "t", "a")] [.literal (.Int64 (some 1))]
        [(some "t", "a", .int32, true)]) :=
  from_plan_identity _ trivial

/-- C6 counterexample: an `Explain` node cannot be rebuilt from its own
parts — its `inputs()` is the explained plan, but the Explain arm of
`from_plan` asserts the input list is empty, so the rebuild panics instead
of returning the node. -/
theorem from_plan_explain_panics :
    (LogicalPlanM.explain false (.emptyRelation false []) [] []).expressionsM = []
    ∧ (LogicalPlanM.explain false (.emptyRelation false []) [] []).inputsM
        = [.emptyRelation false []]
    ∧ from_plan (.explain false (.emptyRelation false []) [] [])
        [] [.emptyRelation false []] = .error .Panicked :=
  ⟨rfl, rfl, rfl⟩

theorem toDigitsCore_eq10 : ∀ (f n : Nat) (ds : List Char), n < f →
    Nat.toDigitsCore 10 f n ds = digitsString n ++ ds := by
  intro f
  induction f with
  | zero => intro n ds h; omega
  | succ f ih =>
      intro n ds h
      by_cases h0 : n / 10 = 0
      · simp only [Nat.toDigitsCore, h0, if_true]
        rw [digitsString, dif_pos h0]
        rfl
      · have hlt : n / 10 < f := by omega
        simp only [Nat.toDigitsCore, h0, if_false]
        rw [ih (n / 10) (Nat.digitChar (n % 10) :: ds) hlt]
        conv_rhs => rw [digitsString]
        rw [dif_neg h0]
        simp

/-- Decimal digit value of a character. -/
def charVal (c : Char) : Nat := c.toNat - 48

/-- Parse a big-endian decimal digit list. -/
def parseDigits (acc : Nat) (l : List Char) : Nat :=
  l.foldl (fun a c => a * 10 + charVal c) acc

theorem charVal_digitChar (d : Nat) (h : d < 10) :
    charVal (Nat.digitChar d) = d := by
  interval_cases d <;> rfl

theorem parseDigits_digitsString : ∀ (n : Nat) (acc : Nat),
    parseDigits acc (digitsString n) = acc * 10 ^ (digitsString n).length + n := by
  intro n
  induction n using Nat.strong_induction_on with
  | _ n ih =>
      intro acc
      by_cases h0 : n / 10 = 0
      · rw [digitsString, dif_pos h0]
        have h10 : n < 10 := by omega
        have hn : n % 10 = n := by omega
        simp [parseDigits, hn, charVal_digitChar n h10]
      · rw [digitsString, dif_neg h0]
        have hlt : n / 10 < n := by omega
        have ihn := ih (n / 10) hlt acc
        simp only [parseDigits, List.foldl_append] at ihn ⊢
        rw [ihn]
        simp only [List.foldl, charVal_digitChar (n % 10) (by omega)]
        simp only [List.length_append, List.length_cons, List.length_nil]
        ring_nf
        omega

theorem digitsString_injective (m n : Nat) (h : digitsString m = digitsString n) :
    m = n := by
  have hm := parseDigits_digitsString m 0
  have hn := parseDigits_digitsString n 0
  rw [h] at hm
  rw [hm] at hn
  omega

theorem natRepr_injective (m n : Nat) (h : Nat.repr m = Nat.repr n) : m = n := by
  apply digitsString_injective
  have hm : Nat.toDigits 10 m = digitsString m := by
    have := toDigitsCore_eq10 (m + 1) m [] (by omega)
    simpa [Nat.toDigits] using this
  have hn : Nat.toDigits 10 n = digitsString n := by
    have := toDigitsCore_eq10 (n + 1) n [] (by omega)
    simpa [Nat.toDigits] using this
  have hdata : (Nat.toDigits 10 m).asString.data = (Nat.toDigits 10 n).asString.data := by
    rw [show (Nat.toDigits 10 m).asString = Nat.repr m from rfl,
        show (Nat.toDigits 10 n).asString = Nat.repr n from rfl, h]
  simp only [List.asString] at hdata
  rw [← hm, ← hn]
  exact hdata

theorem column_name_injective (m n : Nat)
    (h : "column" ++ toString m = "column" ++ toString n) : m = n := by
  apply natRepr_injective
  have hdata : ("column" ++ toString m).data = ("column" ++ toString n).data := by
    rw [h]
  simp only [String.data_append] at hdata
  have h2 : (toString m).data = (toString n).data :=
    List.append_cancel_left hdata
  show Nat.repr m = Nat.repr n
  have hm : toString m = Nat.repr m := rfl
  have hn : toString n = Nat.repr n := rfl
  rw [hm, hn] at h2
  exact String.ext h2

theorem valuesTypeRow_first (tmpl : List ExprM)
    (hcells : ∀ c ∈ tmpl, ∃ sv, c = .literal sv) :
    valuesTypeRow tmpl (List.replicate tmpl.length none)
      = .ok (tmpl.map columnTypeOf) := by
  induction tmpl with
  | nil => rfl
  | cons c rest ih =>
      obtain ⟨sv, rfl⟩ := hcells c (by simp)
      have ih2 := ih (fun x hx => hcells x (List.mem_cons_of_mem _ hx))
      cases sv <;>
        simp [valuesTypeRow, ExprM.get_type_empty, columnTypeOf, ih2,
          List.replicate_succ, Bind.bind, Except.bind, Except.map]

theorem valuesTypeRow_stable (tmpl : List ExprM)
    (hcells : ∀ c ∈ tmpl, ∃ sv, c = .literal sv) :
    valuesTypeRow tmpl (tmpl.map columnTypeOf) = .ok (tmpl.map columnTypeOf) := by
  induction tmpl with
  | nil => rfl
  | cons c rest ih =>
      obtain ⟨sv, rfl⟩ := hcells c (by simp)
      have ih2 := ih (fun x hx => hcells x (List.mem_cons_of_mem _ hx))
      cases sv <;>
        simp [valuesTypeRow, ExprM.get_type_empty, columnTypeOf, ih2,
          Bind.bind, Except.bind, Except.map]

theorem valuesFold_stable (k : Nat) (tmpl : List ExprM)
    (hcells : ∀ c ∈ tmpl, ∃ sv, c = .literal sv) :
    valuesFold (List.replicate k tmpl) tmpl.length (tmpl.map columnTypeOf)
      = .ok (tmpl.map columnTypeOf) := by
  induction k with
  | zero => rfl
  | succ k ih =>
      simp [valuesFold, List.replicate_succ, valuesTypeRow_stable tmpl hcells, ih,
        Bind.bind, Except.bind]

theorem rewriteRow_template (tmpl : List ExprM) (s : Nat)
    (hcells : ∀ c ∈ tmpl, ∃ sv, c = .literal sv) :
    rewriteRow tmpl (((tmpl.map columnTypeOf).enumFrom s).map
        (fun p => (none, "column" ++ toString (p.1 + 1), p.2.getD .utf8, true)))
      = .ok (tmpl.map retypeNullCell) := by
  induction tmpl generalizing s with
  | nil => rfl
  | cons c rest ih =>
      obtain ⟨sv, rfl⟩ := hcells c (by simp)
      have ih2 := ih (s + 1) (fun x hx => hcells x (List.mem_cons_of_mem _ hx))
      cases sv <;>
        simp [rewriteRow, columnTypeOf, retypeNullCell, ih2,
          ScalarValue.try_from_datatype, List.enumFrom,
          Bind.bind, Except.bind, Except.map]

theorem mapM_replicate_ok {α β : Type} (f : α → Except DataFusionError β)
    (a : α) (b : β) (hf : f a = .ok b) (k : Nat) :
    (List.replicate k a).mapM f = .ok (List.replicate k b) := by
  induction k with
  | zero => rfl
  | succ k ih =>
      rw [List.replicate_succ, List.mapM_cons]
      simp only [hf, Bind.bind, Except.bind, Pure.pure, Except.pure]
      rw [ih]
      rfl

theorem valuesFields_names_nodup (ft : List (Option DataTypeM)) :
    (((valuesFields ft).filter (fun f => f.1.isNone)).map (fun f => f.2.1)).Nodup := by
  have hfil : (valuesFields ft).filter (fun f => f.1.isNone) = valuesFields ft := by
    rw [List.filter_eq_self]
    intro a ha
    simp only [valuesFields, List.mem_map] at ha
    obtain ⟨p, _, rfl⟩ := ha
    rfl
  rw [hfil]
  have hmm : (valuesFields ft).map (fun f => f.2.1)
      = (ft.enum.map Prod.fst).map (fun i => "column" ++ toString (i + 1)) := by
    simp only [valuesFields, List.map_map]
    rfl
  rw [hmm]
  apply List.Nodup.map_on
  · intro x _ y _ hxy
    have := column_name_injective (x + 1) (y + 1) hxy
    omega
  · exact List.nodup_enum_map_fst ft

theorem dfschema_new_valuesFields (ft : List (Option DataTypeM)) :
    dfschema_new (valuesFields ft) = .ok (valuesFields ft) := by
  rw [dfschema_new]
  rw [if_pos]
  constructor
  · exact valuesFields_names_nodup ft
  · intro f hf hs
    simp only [valuesFields, List.mem_map] at hf
    obtain ⟨p, _, rfl⟩ := hf
    simp at hs

set_option maxHeartbeats 1000000 in
/-- C10: for every non-empty matrix all of whose rows equal a template of
literals (any width, any number of rows), `values` succeeds; a column
holding only null literals gets the fallback data type `Utf8`, its name
`column{j+1}` and no qualifier, every null hole is retyped to the typed
null `Utf8(None)`, and every output field is nullable. -/
theorem values_all_null_column (n : Nat) (tmpl : List ExprM) (j : Nat)
    (hne : tmpl ≠ [])
    (hcells : ∀ c ∈ tmpl, ∃ sv, c = .literal sv)
    (hj : tmpl.get? j = some (.literal .Null)) :
    builder_values (List.replicate (n + 1) tmpl)
      = .ok (.valuesP (valuesFields (tmpl.map columnTypeOf))
          (List.replicate (n + 1) (tmpl.map retypeNullCell)))
    ∧ (valuesFields (tmpl.map columnTypeOf)).get? j
        = some (none, "column" ++ toString (j + 1), .utf8, true)
    ∧ (∀ f ∈ valuesFields (tmpl.map columnTypeOf), f.2.2.2 = true)
    ∧ (tmpl.map retypeNullCell).get? j = some (.literal (.Utf8 none)) := by
  refine ⟨?_, ?_, ?_, ?_⟩
  · have hlen : tmpl.length ≠ 0 := by
      intro h0
      exact hne (List.length_eq_zero.mp h0)
    have hrw : rewriteRow tmpl (valuesFields (tmpl.map columnTypeOf))
        = .ok (tmpl.map retypeNullCell) := by
      have h0 := rewriteRow_template tmpl 0 hcells
      simpa [valuesFields, List.enum] using h0
    have hmapm := mapM_replicate_ok (fun r => rewriteRow r
        (valuesFields (tmpl.map columnTypeOf)))
      tmpl (tmpl.map retypeNullCell) hrw (n + 1)
    simp only [List.replicate_succ] at hmapm
    have hfold : valuesFold (tmpl :: List.replicate n tmpl) tmpl.length
        (List.replicate tmpl.length none) = .ok (tmpl.map columnTypeOf) := by
      simp only [valuesFold, if_pos rfl, valuesTypeRow_first tmpl hcells,
        Bind.bind, Except.bind]
      exact valuesFold_stable n tmpl hcells
    rw [List.replicate_succ]
    simp only [builder_values]
    rw [if_neg hlen]
    simp only [Bind.bind, Except.bind, hfold, hmapm,
      dfschema_new_valuesFields (tmpl.map columnTypeOf)]
    rw [List.replicate_succ]
  · have hj2 : tmpl[j]? = some (.literal .Null) := by
      rw [← List.get?_eq_getElem?]
      exact hj
    simp [valuesFields, List.get?_eq_getElem?, List.getElem?_enum,
      List.getElem?_map, hj2, columnTypeOf]
  · intro f hf
    simp only [valuesFields, List.mem_map] at hf
    obtain ⟨p, _, rfl⟩ := hf
    rfl
  · have hj2 : tmpl[j]? = some (.literal .Null) := by
      rw [← List.get?_eq_getElem?]
      exact hj
    simp [List.get?_eq_getElem?, List.getElem?_map, hj2, retypeNullCell]

/-- Witness for the C10 theorem: a two-row matrix with an Int64 column and
an all-null column. -/
theorem values_all_null_column_witness :
    builder_values (List.replicate 2
        [.literal (.Int64 (some 7)), .literal .Null])
      = .ok (.valuesP
          [(none, "column1", .int64, true), (none, "column2", .utf8, true)]
          (List.replicate 2
            [.literal (.Int64 (some 7)), .literal (.Utf8 none)])) := by
  have h := values_all_null_column 1
    [.literal (.Int64 (some 7)), .literal .Null] 1
    (by simp)
    (by
      intro c hc
      simp only [List.mem_cons, List.not_mem_nil, or_false] at hc
      rcases hc with rfl | rfl
      · exact ⟨_, rfl⟩
      · exact ⟨_, rfl⟩)
    rfl
  exact h.1

theorem mapM_exprToField_self (s : DFSchemaM) (l : List DFFieldM)
    (h : ∀ f ∈ l, field_from_column s (f.1, f.2.1) = .ok f) :
    (l.map (fun f => ExprM.column (f.1, f.2.1))).mapM (exprToField s) = .ok l := by
  induction l with
  | nil => rfl
  | cons f rest ih =>
      have hf := h f (by simp)
      have ih2 := ih (fun g hg => h g (List.mem_cons_of_mem _ hg))
      rw [List.map_cons, List.mapM_cons]
      simp only [exprToField, hf, Bind.bind, Except.bind]
      rw [ih2]
      rfl

set_option maxHeartbeats 1000000 in
/-- C4: sorting a projection by a qualified column that its output schema
lacks but its input resolves produces Projection over Sort over the widened
projection — the missing column is appended to the lower projection's
expression list — and the outer projection's schema is exactly the schema
the plan had before the sort (same fields, same order, same qualifiers). -/
theorem sort_missing_column_restores_schema
    (pexprs : List ExprM) (base : LogicalPlanM) (schemaP fieldsInner : DFSchemaM)
    (q name : String) (asc nf : Bool)
    (hnotagg : isAggregateB base = false)
    (hmiss : exceptOk (field_from_column schemaP (some q, name)) = false)
    (hbase : exceptOk (field_from_column base.schema (some q, name)) = true)
    (hresolve : ∀ f ∈ schemaP, field_from_column schemaP (f.1, f.2.1) = .ok f)
    (hvalid : dfschema_new schemaP = .ok schemaP)
    (hfi : exprlist_to_fields (pexprs ++ [.column (some q, name)]) base
      = .ok fieldsInner)
    (hdsI : dfschema_new fieldsInner = .ok fieldsInner) :
    builder_sort (.projection pexprs base schemaP none)
        [.sortE (.column (some q, name)) asc nf]
      = .ok (.projection (schemaP.map (fun f => ExprM.column (f.1, f.2.1)))
          (.sort [.sortE (.column (some q, name)) asc nf]
            (.projection (pexprs ++ [.column (some q, name)]) base fieldsInner none))
          schemaP none) := by
  have h1 : rewrite_sort_cols_by_aggs [.sortE (.column (some q, name)) asc nf]
      (.projection pexprs base schemaP none)
      = .ok [.sortE (.column (some q, name)) asc nf] := by
    simp [rewrite_sort_cols_by_aggs, hnotagg]
  have hm : collectMissing schemaP [.sortE (.column (some q, name)) asc nf]
      = .ok [(some q, name)] := by
    simp [collectMissing, ExprM.expr_to_columns, hmiss,
      Bind.bind, Except.bind, List.filter]
  have hnorme : normalize_col base (.column (some q, name))
      = .ok (.column (some q, name)) := rfl
  have hadd : add_missing_columns [(some q, name)]
      (.projection pexprs base schemaP none)
      = .ok (.projection (pexprs ++ [.column (some q, name)]) base fieldsInner none) := by
    simp only [add_missing_columns, List.all_cons, List.all_nil, hbase,
      Bool.and_true, if_true, List.mapM_cons, List.mapM_nil, hnorme,
      Bind.bind, Except.bind, Pure.pure, Except.pure, hfi, hdsI]
  have hnorm : normalize_cols [ExprM.sortE (.column (some q, name)) asc nf]
      (.projection (pexprs ++ [.column (some q, name)]) base fieldsInner none)
      = .ok [.sortE (.column (some q, name)) asc nf] := rfl
  have houter : exprlist_to_fields
      (schemaP.map (fun f => ExprM.column (f.1, f.2.1)))
      (.projection pexprs base schemaP none) = .ok schemaP :=
    mapM_exprToField_self schemaP schemaP hresolve
  simp only [builder_sort, LogicalPlanM.schema, Bind.bind, Except.bind,
    h1, hm, List.isEmpty, Bool.false_eq_true, if_false,
    hadd, hnorm, houter, hvalid]

/-- Witness for the C4 theorem: the spec's scenario — project `state` from
an employee scan, then sort by the projected-away `salary`. -/
theorem sort_missing_column_restores_schema_witness :
    builder_sort
        (.projection [.column (some "employee_csv", "state")]
          (.tableScan "employee_csv"
            [(some "employee_csv", "state", DataTypeM.utf8, true),
             (some "employee_csv", "salary", DataTypeM.int32, true)]
            none [] none)
          [(some "employee_csv", "state", DataTypeM.utf8, true)] none)
        [.sortE (.column (some "employee_csv", "salary")) false true]
      = .ok (.projection
          [.column (some "employee_csv", "state")]
          (.sort [.sortE (.column (some "employee_csv", "salary")) false true]
            (.projection
              [.column (some "employee_csv", "state"),
               .column (some "employee_csv", "salary")]
              (.tableScan "employee_csv"
                [(some "employee_csv", "state", DataTypeM.utf8, true),
                 (some "employee_csv", "salary", DataTypeM.int32, true)]
                none [] none)
              [(some "employee_csv", "state", DataTypeM.utf8, true),
               (some "employee_csv", "salary", DataTypeM.int32, true)]
              none))
          [(some "employee_csv", "state", DataTypeM.utf8, true)] none) := by
  have h := sort_missing_column_restores_schema
    [.column (some "employee_csv", "state")]
    (.tableScan "employee_csv"
      [(some "employee_csv", "state", DataTypeM.utf8, true),
       (some "employee_csv", "salary", DataTypeM.int32, true)]
      none [] none)
    [(some "employee_csv", "state", DataTypeM.utf8, true)]
    [(some "employee_csv", "state", DataTypeM.utf8, true),
     (some "employee_csv", "salary", DataTypeM.int32, true)]
    "employee_csv" "salary" false true
    rfl rfl rfl
    (by
      intro f hf
      rcases List.mem_singleton.mp hf with rfl
      rfl)
    rfl rfl rfl
  simpa using h

end DataFusion
